import Mathlib

/-!
Verification of the dbt-to-semantic-model compiler of this repository
(`convertDimension`, `convertDbtMetricToLightdashMetric`, `convertTable`,
`modelCanUseMetric`, `convertExplores`, `attachTypesToModels`).

The TypeScript source is embedded shallowly:
* JS objects (`Record<string, T>`) become association lists `Rcd T` whose
  insertion function `setKey` mirrors JS property assignment (update in
  place, append new keys at the end, so spreads keep insertion order);
* code that can `throw` returns `Except LdError _`;
* the one function with unguarded recursion (`modelCanUseMetric`) takes a
  fuel parameter and returns `Option Bool`, `none` standing for a
  non-terminating run;
* external collaborators that are not part of this repository excerpt
  (`convertMetric`, `compileExplore`, `buildModelGraph`, the time-frame
  helpers, `defaultSql`, `friendlyName`, `parseMetricType`, `parseFilters`)
  are either parameters (`Externals`) or definitions whose doc comment
  starts with `Modelled from the spec:`.
-/

/-- JS `a || b` for an optional string `a`: `undefined` and `""` are falsy. -/
def jsOr (a : Option String) (b : String) : String :=
  match a with
  | none => b
  | some s => if s = "" then b else s

/-- JS `a || b` where both sides are optional strings. -/
def jsOrOpt (a b : Option String) : Option String :=
  match a with
  | none => b
  | some s => if s = "" then b else some s

/-- `e.message || fallback`: the fallback applies when the message is absent or empty. -/
def orFallback (m : Option String) (fb : String) : String :=
  match m with
  | none => fb
  | some s => if s = "" then fb else s

/-- JS `String.prototype.toLowerCase`, as a structural map over the character
list (the library `String.toLower` is well-founded-recursive and does not
reduce in the kernel). -/
def lowerString (s : String) : String := String.mk (s.data.map Char.toLower)

/-- One pass of JS `String.prototype.replace` with a global regex built from a
plain reference name: replace every occurrence, scanning left to right and
resuming after each replacement. Structurally recursive on fuel so concrete
runs reduce in the kernel; an empty pattern (a degenerate `RegExp(undefined)`
never built by well-formed metrics) scans without replacing. -/
def replaceFrom (pat rep : List Char) : Nat → List Char → List Char
  | 0, s => s
  | _ + 1, [] => []
  | n + 1, c :: rest =>
      if pat ≠ [] ∧ pat.isPrefixOf (c :: rest) then
        rep ++ replaceFrom pat rep n ((c :: rest).drop pat.length)
      else c :: replaceFrom pat rep n rest

/-- Global textual replacement of `pat` by `rep` in `s`. -/
def replaceAll (s pat rep : String) : String :=
  String.mk (replaceFrom pat.data rep.data (s.data.length + 1) s.data)

/-- A JS object with string keys, as an association list in insertion order. -/
abbrev Rcd (α : Type) := List (String × α)

/-- JS property assignment `obj[k] = v`: overwrite in place, or append a new key. -/
def setKey {α : Type} : Rcd α → String → α → Rcd α
  | [], k, v => [(k, v)]
  | (k', v') :: r, k, v =>
      if k' = k then (k, v) :: r else (k', v') :: setKey r k v

/-- JS property lookup `obj[k]`. -/
def getKey {α : Type} : Rcd α → String → Option α
  | [], _ => none
  | (k', v) :: r, k => if k' = k then some v else getKey r k

/-- `Object.keys`. -/
def keysOf {α : Type} (r : Rcd α) : List String := r.map Prod.fst

/-- The JS spread `{...a, ...b}` (also `Object.fromEntries` when `a = []`):
`b`'s entries are assigned one by one on top of `a`, so `b` wins on shared keys. -/
def spread {α : Type} (a b : Rcd α) : Rcd α :=
  b.foldl (fun acc p => setKey acc p.1 p.2) a

/-- A JS object never holds the same key twice. -/
def NodupKeys {α : Type} (r : Rcd α) : Prop := (keysOf r).Nodup

/-- The warehouse adapter kinds of `SupportedDbtAdapter`. -/
inductive SupportedDbtAdapter
  | bigquery
  | snowflake
  | redshift
  | postgres
  | databricks
  | trino
  deriving DecidableEq, Repr

/-- `Object.values(DimensionType)`: the recognised dimension type strings. -/
def dimensionTypeValues : List String :=
  ["string", "number", "timestamp", "date", "boolean"]

/-- The semantic metric-type enum (aggregation kinds plus NUMBER for expressions). -/
inductive MetricType
  | NUMBER
  | SUM
  | AVERAGE
  | COUNT
  | COUNT_DISTINCT
  | MIN
  | MAX
  deriving DecidableEq, Repr

/-- Modelled from the spec: `parseMetricType` (external, `types/field`) parses a
dbt calculation-method string into the metric-type enum, failing on anything else. -/
def parseMetricType (s : String) : Option MetricType :=
  match s with
  | "number" => some .NUMBER
  | "sum" => some .SUM
  | "average" => some .AVERAGE
  | "count" => some .COUNT
  | "count_distinct" => some .COUNT_DISTINCT
  | "min" => some .MIN
  | "max" => some .MAX
  | _ => none

/-- Modelled from the spec: the time-granularity identifiers of the TimeFrame
Resolver (external, `types/timeFrames`), `"e.g. day/week/month/quarter/year, and
for TIMESTAMP additionally sub-day granularities"`. -/
inductive TimeFrames
  | day
  | week
  | month
  | quarter
  | year
  | hour
  | minute
  | second
  deriving DecidableEq, Repr, Fintype

/-- The string value of a `TimeFrames` enum member (the spec writes the
identifiers in lowercase: day/week/month/quarter/year, ...). -/
def TimeFrames.toStr : TimeFrames → String
  | .day => "day"
  | .week => "week"
  | .month => "month"
  | .quarter => "quarter"
  | .year => "year"
  | .hour => "hour"
  | .minute => "minute"
  | .second => "second"

/-- Modelled from the spec: the time-interval identifier parser used by
`validateTimeFrames`; an unrecognised identifier is invalid. -/
def parseTimeFrame (s : String) : Option TimeFrames :=
  match s with
  | "day" => some .day
  | "week" => some .week
  | "month" => some .month
  | "quarter" => some .quarter
  | "year" => some .year
  | "hour" => some .hour
  | "minute" => some .minute
  | "second" => some .second
  | _ => none

/-- The error kinds thrown by this compiler core, with the JS `e.name` and
`e.message` of each. `genericError` stands for a plain `new Error(...)`. -/
inductive LdError
  | nonCompiledModelError (message : String)
  | missingCatalogEntryError (message : String)
  | parseError (message : String)
  | genericError (message : Option String)
  deriving DecidableEq, Repr

/-- JS `e.name` of a thrown error. -/
def LdError.errName : LdError → String
  | .nonCompiledModelError _ => "NonCompiledModelError"
  | .missingCatalogEntryError _ => "MissingCatalogEntryError"
  | .parseError _ => "ParseError"
  | .genericError _ => "Error"

/-- JS `e.message` of a thrown error. -/
def LdError.errMessage : LdError → Option String
  | .nonCompiledModelError m => some m
  | .missingCatalogEntryError m => some m
  | .parseError m => some m
  | .genericError m => m

/-- Modelled from the spec: a `Source` ("sources" are unimplemented in the
excerpt: `loadSources` throws before one is ever built). -/
abbrev Source := String

/-- `fieldType` discriminator of semantic fields. -/
inductive FieldType
  | dimension
  | metric
  deriving DecidableEq, Repr

/-- The `time_intervals` override of a column's dimension meta: the sentinel
`"OFF"` or an explicit list of interval identifiers. -/
inductive TimeIntervalsSetting
  | off
  | explicitList (l : List String)
  deriving DecidableEq, Repr

/-- The `meta.dimension` override block of a dbt column. The `type` field is a
raw manifest string, validated at conversion time against `dimensionTypeValues`. -/
structure DbtColumnDimensionMeta where
  type : Option String
  name : Option String
  sql : Option String
  label : Option String
  description : Option String
  hidden : Option Bool
  round : Option Nat
  compact : Option String
  format : Option String
  group_label : Option String
  time_intervals : Option TimeIntervalsSetting
  urls : Option (List (String × String))
  deriving DecidableEq, Repr

/-- Modelled from the spec: the shape of a column-embedded metric declaration
(`DbtColumnLightdashMetric`, external) is opaque to this core; it is carried to
the external `convertMetric` collaborator untouched. -/
abbrev DbtColumnLightdashMetric := String

/-- A dbt column's `meta` block: the dimension override and embedded metrics. -/
structure DbtColumnMeta where
  dimension : Option DbtColumnDimensionMeta
  metrics : Rcd DbtColumnLightdashMetric
  deriving DecidableEq, Repr

/-- One column of a dbt model. `data_type` is the catalog-attached (or raw
manifest) type string, validated at conversion time. -/
structure DbtModelColumn where
  name : String
  description : Option String
  meta : DbtColumnMeta
  data_type : Option String
  deriving DecidableEq, Repr

/-- One `join` entry of a model's meta block. -/
structure DbtJoin where
  join : String
  sql_on : String
  deriving DecidableEq, Repr

/-- A dbt model's `meta` (or `config.meta`) block. -/
structure DbtModelMeta where
  label : Option String
  joins : Option (List DbtJoin)
  deriving DecidableEq, Repr

/-- A compiled dbt model node. `config_meta` is `model.config?.meta`. -/
structure DbtModelNode where
  unique_id : String
  name : String
  database : String
  schema : String
  relation_name : Option String
  description : Option String
  columns : Rcd DbtModelColumn
  config_meta : Option DbtModelMeta
  meta : DbtModelMeta
  tags : Option (List String)
  patch_path : Option String
  compiled : Bool
  deriving DecidableEq, Repr

/-- `model.config?.meta || model.meta`: the config block takes priority. -/
def resolveMeta (m : DbtModelNode) : DbtModelMeta :=
  m.config_meta.getD m.meta

/-- A filter entry of a dbt-native metric. -/
structure DbtMetricFilter where
  field : String
  operator : String
  value : String
  deriving DecidableEq, Repr

/-- The `meta` block of a dbt-native metric. -/
structure DbtMetricMeta where
  hidden : Option Bool
  round : Option Nat
  compact : Option String
  format : Option String
  group_label : Option String
  show_underlying_values : Option (List String)
  filters : Option (List String)
  urls : Option (List (String × String))
  deriving DecidableEq, Repr

/-- A dbt-native metric. Optional array fields (`filters`, `metrics`, `refs`)
are embedded as lists, `[]` standing for an absent field exactly as the
source's `x || []` and `x.length > 0` guards treat it. -/
structure DbtMetric where
  unique_id : String
  name : String
  label : Option String
  description : Option String
  calculation_method : String
  expression : Option String
  filters : List DbtMetricFilter
  metrics : List (List String)
  refs : List (List String)
  meta : Option DbtMetricMeta
  deriving DecidableEq, Repr

/-- A semantic dimension. -/
structure Dimension where
  fieldType : FieldType
  name : String
  label : String
  sql : String
  table : String
  tableLabel : String
  type : String
  description : Option String
  source : Option Source
  group : Option String
  timeInterval : Option TimeFrames
  hidden : Bool
  format : Option String
  round : Option Nat
  compact : Option String
  groupLabel : Option String
  urls : Option (List (String × String))
  deriving DecidableEq, Repr

/-- A semantic metric. -/
structure Metric where
  fieldType : FieldType
  type : MetricType
  isAutoGenerated : Bool
  name : String
  label : String
  table : String
  tableLabel : String
  sql : String
  description : Option String
  source : Option Source
  hidden : Bool
  round : Option Nat
  compact : Option String
  format : Option String
  groupLabel : Option String
  showUnderlyingValues : Option (List String)
  filters : List String
  urls : Option (List (String × String))
  deriving DecidableEq, Repr

/-- Modelled from the spec: `defaultSql` (external, `types/field`) renders a
quoted reference to a column, `$\x7bTABLE\x7d.<column>` (scenario: SQL
`$\x7bTABLE\x7d.amount`). -/
def defaultSql (columnName : String) : String :=
  "$\x7bTABLE\x7d." ++ columnName

/-- Modelled from the spec: `friendlyName` (external, `types/field`) derives a
human label from an identifier; its exact formatting is outside this excerpt
and irrelevant to every claim, so it is embedded as the identifier itself. -/
def friendlyName (n : String) : String := n

/-- Modelled from the spec: `parseFilters` (external, `types/filterGrammar`)
compiles a metric meta's filter block; opaque to this core. -/
def parseFilters (l : Option (List String)) : List String := l.getD []

/-- Modelled from the spec: one entry of the TimeFrame Resolver's table —
SQL generation, a human label, and the resulting dimension type for one
granularity. -/
structure TimeFrameConfig where
  getSql : SupportedDbtAdapter → TimeFrames → String → String → String
  getLabel : String
  getDimensionType : String → String

/-- Modelled from the spec: the TimeFrame Resolver's per-granularity table
(external, `utils/timeFrames`). Truncation SQL and labels are generated per
interval; day-and-coarser truncations demote TIMESTAMP to a DATE-like type. -/
def timeFrameConfigs (t : TimeFrames) : TimeFrameConfig :=
  { getSql := fun _ tf sql _ => "DATE_TRUNC('" ++ tf.toStr ++ "', " ++ sql ++ ")"
    getLabel := t.toStr
    getDimensionType := fun ty =>
      match t with
      | .day | .week | .month | .quarter | .year => "date"
      | _ => ty }

/-- Modelled from the spec: the default interval set for a base type — the
standard calendar truncations, plus sub-day granularities for TIMESTAMP. -/
def getDefaultTimeFrames (ty : String) : List TimeFrames :=
  if ty = "timestamp" then
    [.day, .week, .month, .quarter, .year, .hour, .minute, .second]
  else
    [.day, .week, .month, .quarter, .year]

/-- Modelled from the spec: `validateTimeFrames` (external, `utils/timeFrames`)
checks an explicit interval list against the allowed identifiers and uses it
verbatim; an invalid entry is rejected with a validation error naming it. -/
def validateTimeFrames (l : List String) : Except LdError (List TimeFrames) :=
  l.mapM (fun s =>
    match parseTimeFrame s with
    | some t => .ok t
    | none => .error (.parseError ("Invalid time interval: " ++ s)))

/-- `convertTimezone`: the per-warehouse timezone-normalization hook. A
pass-through for every adapter except Snowflake (the enum embedding makes the
source's unreachable-adapter `ParseError` branch unrepresentable). -/
def convertTimezone (timestampSql : String) (_default_source_tz _target_tz : String)
    (adapterType : SupportedDbtAdapter) : String :=
  match adapterType with
  | .bigquery => timestampSql
  | .snowflake => "TO_TIMESTAMP_NTZ(CONVERT_TIMEZONE('UTC', " ++ timestampSql ++ "))"
  | .redshift => timestampSql
  | .postgres => timestampSql
  | .databricks => timestampSql
  | .trino => timestampSql

/-- `convertDimension`: convert one dbt column (optionally through a time
interval) into a `Dimension`. The only throw site is the dimension-type
validation against `dimensionTypeValues`. -/
def convertDimension (targetWarehouse : SupportedDbtAdapter) (model : DbtModelNode)
    (tableLabel : String) (column : DbtModelColumn) (source : Option Source)
    (timeInterval : Option TimeFrames) : Except LdError Dimension :=
  let type0 := jsOr (column.meta.dimension.bind (fun d => d.type))
      (jsOr column.data_type "string")
  if dimensionTypeValues.contains type0 = false then
    .error (.missingCatalogEntryError
      ("Could not recognise type \"" ++ type0 ++ "\" for dimension \"" ++ column.name
        ++ "\" in dbt model \"" ++ model.name ++ "\". Valid types are: "
        ++ String.intercalate ", " dimensionTypeValues))
  else
    let name0 := jsOr (column.meta.dimension.bind (fun d => d.name)) column.name
    let sqlBase := jsOr (column.meta.dimension.bind (fun d => d.sql)) (defaultSql column.name)
    let label0 := jsOr (column.meta.dimension.bind (fun d => d.label)) (friendlyName name0)
    let sqlTz := if type0 = "timestamp" then convertTimezone sqlBase "UTC" "UTC" targetWarehouse
      else sqlBase
    let fin : String × String × String × Option String × String :=
      match timeInterval with
      | none => (name0, sqlTz, label0, none, type0)
      | some ti =>
          (column.name ++ "_" ++ lowerString ti.toStr,
           (timeFrameConfigs ti).getSql targetWarehouse ti sqlTz type0,
           label0 ++ " " ++ lowerString (timeFrameConfigs ti).getLabel,
           some column.name,
           (timeFrameConfigs ti).getDimensionType type0)
    .ok
      { fieldType := .dimension
        name := fin.1
        label := fin.2.2.1
        sql := fin.2.1
        table := model.name
        tableLabel := tableLabel
        type := fin.2.2.2.2
        description := jsOrOpt (column.meta.dimension.bind (fun d => d.description))
          column.description
        source := source
        group := fin.2.2.2.1
        timeInterval := timeInterval
        hidden := (column.meta.dimension.bind (fun d => d.hidden)).getD false
        format := column.meta.dimension.bind (fun d => d.format)
        round := column.meta.dimension.bind (fun d => d.round)
        compact := column.meta.dimension.bind (fun d => d.compact)
        groupLabel := column.meta.dimension.bind (fun d => d.group_label)
        urls := column.meta.dimension.bind (fun d => d.urls) }

/-- `convertDbtMetricToLightdashMetric`: convert one dbt-native metric.
Expression metrics force type NUMBER and textually substitute every referenced
metric name; aggregation metrics parse the calculation method and treat a bare
identifier expression as a column reference. Declared filters wrap the SQL in a
CASE WHEN guard. -/
def convertDbtMetricToLightdashMetric (metric : DbtMetric) (tableName tableLabel : String) :
    Except LdError Metric := do
  let st : String × MetricType ←
    if metric.calculation_method = "expression" then
      let referencedMetrics := metric.metrics.map List.head?
      match metric.expression with
      | none => .error (.parseError ("dbt expression metric \"" ++ metric.name
          ++ "\" must have the sql field set"))
      | some e =>
          if e = "" then
            .error (.parseError ("dbt expression metric \"" ++ metric.name
              ++ "\" must have the sql field set"))
          else
            -- each reference is globally replaced in turn, `sql.replace(re, ...)`
            let sql := referencedMetrics.foldl (fun s r =>
              match r with
              | some ref => replaceAll s ref ("$\x7b" ++ ref ++ "\x7d")
              | none => s) e
            pure (sql, MetricType.NUMBER)
    else
      match parseMetricType metric.calculation_method with
      | none => .error (.parseError ("Cannot parse metric '" ++ metric.unique_id
          ++ ": type " ++ metric.calculation_method
          ++ " is not a valid Lightdash metric type"))
      | some ty =>
          let sql0 := defaultSql metric.name
          let sql :=
            match metric.expression with
            | none => sql0
            | some e =>
                if e = "" then sql0
                else if e ≠ "" && e.toList.all (fun c => c.isAlphanum || c = '_') then
                  defaultSql e
                else e
          pure (sql, ty)
  let sqlFinal :=
    if metric.filters.length > 0 then
      let filterSql := String.intercalate " AND " (metric.filters.map (fun f =>
        "($\x7bTABLE\x7d." ++ f.field ++ " " ++ f.operator ++ " " ++ f.value ++ ")"))
      "CASE WHEN " ++ filterSql ++ " THEN " ++ st.1 ++ " ELSE NULL END"
    else st.1
  pure
    { fieldType := .metric
      type := st.2
      isAutoGenerated := false
      name := metric.name
      label := jsOr metric.label (friendlyName metric.name)
      table := tableName
      tableLabel := tableLabel
      sql := sqlFinal
      description := metric.description
      source := none
      hidden := ((metric.meta.bind (fun m => m.hidden)).getD false)
      round := metric.meta.bind (fun m => m.round)
      compact := metric.meta.bind (fun m => m.compact)
      format := metric.meta.bind (fun m => m.format)
      groupLabel := metric.meta.bind (fun m => m.group_label)
      showUnderlyingValues := metric.meta.bind (fun m => m.show_underlying_values)
      filters := parseFilters (metric.meta.bind (fun m => m.filters))
      urls := metric.meta.bind (fun m => m.urls) }

/-- Arguments handed to the external `convertMetric` collaborator for one
column-embedded metric. -/
structure ConvertMetricArgs where
  modelName : String
  dimensionName : String
  dimensionSql : String
  name : String
  metric : DbtColumnLightdashMetric
  tableLabel : String
  deriving DecidableEq, Repr

/-- Whether `convertTable` expands a column into time-interval dimensions:
the resolved type is DATE or TIMESTAMP and the `time_intervals` override is
absent or not the `"OFF"` sentinel. -/
def timeIntervalsEnabled (column : DbtModelColumn) (dimType : String) : Bool :=
  (dimType = "date" || dimType = "timestamp") &&
    (match column.meta.dimension.bind (fun d => d.time_intervals) with
     | some .off => false
     | _ => true)

/-- The interval set for one expanded column: the validated explicit list if
one is given, otherwise the type's default set. -/
def expandedIntervals (column : DbtModelColumn) (dimType : String) :
    Except LdError (List TimeFrames) :=
  match column.meta.dimension.bind (fun d => d.time_intervals) with
  | some (.explicitList l) => validateTimeFrames l
  | _ => .ok (getDefaultTimeFrames dimType)

/-- The expanded time-interval dimensions of one column (empty when the
resolved type is not DATE/TIMESTAMP or the override is the `"OFF"` sentinel),
keyed `<column>_<interval>`. -/
def columnExtraDims (adapterType : SupportedDbtAdapter) (model : DbtModelNode)
    (tableLabel : String) (column : DbtModelColumn) (dimType : String) :
    Except LdError (List (String × Dimension)) := do
  if timeIntervalsEnabled column dimType then do
    let intervals ← expandedIntervals column dimType
    intervals.mapM (fun interval => do
      let d ← convertDimension adapterType model tableLabel column none (some interval)
      pure (column.name ++ "_" ++ interval.toStr, d))
  else pure []

/-- One column's embedded metrics, compiled through the external
`convertMetric`, keyed by the owning dimension's name and SQL. -/
def columnEmbeddedMetrics (convMetric : ConvertMetricArgs → Except LdError Metric)
    (model : DbtModelNode) (tableLabel : String) (dimension : Dimension)
    (column : DbtModelColumn) : Except LdError (List (String × Metric)) :=
  column.meta.metrics.mapM (fun p => do
    let m ← convMetric
      { modelName := model.name
        dimensionName := dimension.name
        dimensionSql := dimension.sql
        name := p.1
        metric := p.2
        tableLabel := tableLabel }
    pure (p.1, m))

/-- One column's contribution inside `convertTable`'s reduce: the base
dimension under the column name, the expanded interval dimensions keyed
`<column>_<interval>`, and the converted column-embedded metrics. -/
def columnContrib (convMetric : ConvertMetricArgs → Except LdError Metric)
    (adapterType : SupportedDbtAdapter) (model : DbtModelNode) (tableLabel : String)
    (column : DbtModelColumn) :
    Except LdError (List (String × Dimension) × List (String × Metric)) := do
  let dimension ← convertDimension adapterType model tableLabel column none none
  let extra ← columnExtraDims adapterType model tableLabel column dimension.type
  let columnMetrics ← columnEmbeddedMetrics convMetric model tableLabel dimension column
  pure ((column.name, dimension) :: extra, columnMetrics)

/-- The `Object.values(model.columns).reduce` of `convertTable`: fold every
column's contribution into the dimension and metric maps. -/
def convertColumns (convMetric : ConvertMetricArgs → Except LdError Metric)
    (adapterType : SupportedDbtAdapter) (model : DbtModelNode) (tableLabel : String) :
    Except LdError (Rcd Dimension × Rcd Metric) :=
  (model.columns.map Prod.snd).foldlM
    (fun acc column => do
      let contrib ← columnContrib convMetric adapterType model tableLabel column
      pure (spread acc.1 contrib.1, spread acc.2 contrib.2))
    ([], [])

/-- `model.config?.meta.label || model.meta.label || friendlyName(model.name)`. -/
def tableLabelOf (model : DbtModelNode) : String :=
  jsOr (resolveMeta model).label (friendlyName model.name)

/-- `Object.fromEntries(dbtMetrics.map(...))`: convert every dbt-native metric
of the model, keyed by name. -/
def convertDbtMetrics (dbtMetrics : List DbtMetric) (tableName tableLabel : String) :
    Except LdError (Rcd Metric) :=
  dbtMetrics.foldlM
    (fun acc metric => do
      let m ← convertDbtMetricToLightdashMetric metric tableName tableLabel
      pure (setKey acc metric.name m))
    []

/-- The metric keys that also occur as dimension keys (the post-merge
collision check of `convertTable`). -/
def duplicatedNamesOf (dimensions : Rcd Dimension) (allMetrics : Rcd Metric) :
    List String :=
  (keysOf allMetrics).filter (fun k => (keysOf dimensions).contains k)

/-- A model's compiled semantic table before lineage attachment
(`Omit<Table, 'lineageGraph'>`). -/
structure UnlineagedTable where
  name : String
  label : String
  database : String
  schema : String
  sqlTable : String
  description : String
  dimensions : Rcd Dimension
  metrics : Rcd Metric
  deriving DecidableEq, Repr

/-- `convertTable`: assemble one model's table. Preconditions: the model is
compiled and has a relation name; dbt-native metrics are merged with
column-embedded metrics (embedded winning on shared names) and the merged
metric keys must be disjoint from the dimension keys. -/
def convertTable (convMetric : ConvertMetricArgs → Except LdError Metric)
    (adapterType : SupportedDbtAdapter) (model : DbtModelNode)
    (dbtMetrics : List DbtMetric) : Except LdError UnlineagedTable := do
  if model.compiled = false then
    .error (.nonCompiledModelError "Model has not been compiled by dbt")
  else
    let tableLabel := tableLabelOf model
    let dm ← convertColumns convMetric adapterType model tableLabel
    let convertedDbtMetrics ← convertDbtMetrics dbtMetrics model.name tableLabel
    -- Model-level (column-embedded) metric names take priority
    let allMetrics := spread convertedDbtMetrics dm.2
    let duplicatedNames := duplicatedNamesOf dm.1 allMetrics
    if duplicatedNames.length > 0 then
      .error (.parseError
        ((if duplicatedNames.length > 1 then
            "Found multiple metrics and a dimensions with the same name:"
          else
            "Found a metric and a dimension with the same name:")
          ++ " " ++ String.intercalate "," duplicatedNames))
    else
      match model.relation_name with
      | none => .error (.genericError (some "Model has no table relation"))
      | some rel =>
          if rel = "" then .error (.genericError (some "Model has no table relation"))
          else
            .ok
              { name := model.name
                label := tableLabel
                database := model.database
                schema := model.schema
                sqlTable := rel
                description := jsOr model.description (model.name ++ " table")
                dimensions := dm.1
                metrics := allMetrics }

/-- A model's lineage: every family member's name mapped to the names of its
own direct dependencies. -/
abbrev LineageGraph := Rcd (List String)

/-- Modelled from the spec: the dependency-graph capability returned by the
external `buildModelGraph` collaborator (`dependantsOf` / `dependenciesOf` /
`directDependenciesOf` queries plus node data lookup, keyed by `unique_id`). -/
structure DepGraph where
  dependantsOf : String → List String
  dependenciesOf : String → List String
  directDependenciesOf : String → List String
  nodeName : String → String

/-- `generateTableLineage`: the transitive family of one model (dependants,
dependencies and itself), each member mapped to its own direct dependencies. -/
def generateTableLineage (model : DbtModelNode) (depGraph : DepGraph) : LineageGraph :=
  let modelFamilyIds :=
    depGraph.dependantsOf model.unique_id ++ depGraph.dependenciesOf model.unique_id
      ++ [model.unique_id]
  modelFamilyIds.foldl
    (fun prev nodeId =>
      setKey prev (depGraph.nodeName nodeId)
        ((depGraph.directDependenciesOf nodeId).map depGraph.nodeName))
    []

/-- The final `Table`: an `UnlineagedTable` plus its lineage graph. -/
structure Table extends UnlineagedTable where
  lineageGraph : LineageGraph
  deriving DecidableEq, Repr

/-- A fully joined semantic model produced by the external `compileExplore`. -/
structure Explore where
  name : String
  label : String
  tags : List String
  baseTable : String
  deriving DecidableEq, Repr

/-- A per-model structured error record (`ExploreError`): identity plus
`{type, message}` entries. -/
structure ExploreErrorRec where
  name : String
  label : String
  tags : Option (List String)
  errors : List (String × Option String)
  deriving DecidableEq, Repr

/-- One joined-table descriptor handed to `compileExplore`. -/
structure JoinedTable where
  table : String
  sqlOn : String
  deriving DecidableEq, Repr

/-- The argument record of the external `compileExplore` collaborator. -/
structure CompileExploreArgs where
  name : String
  label : String
  tags : List String
  baseTable : String
  joinedTables : List JoinedTable
  tables : Rcd Table
  targetDatabase : SupportedDbtAdapter

/-- The external collaborators consumed by this core, as parameters:
`convertMetric` (column-embedded metric compilation), `compileExplore`
(join resolution) and `buildModelGraph` (dependency graph construction). -/
structure Externals where
  convertMetric : ConvertMetricArgs → Except LdError Metric
  compileExplore : CompileExploreArgs → Except LdError Explore
  buildModelGraph : List DbtModelNode → DepGraph

/-- `translateDbtModelsToTableLineage`: model name → lineage graph, over the
graph of the full model set. -/
def translateDbtModelsToTableLineage (ext : Externals) (models : List DbtModelNode) :
    Rcd LineageGraph :=
  let graph := ext.buildModelGraph models
  models.foldl (fun prev m => setKey prev m.name (generateTableLineage m graph)) []

/-- One step of the `referencedMetrics.every(...)` fold inside
`modelCanUseMetric`: `Array.every` short-circuits on the first `false`, and a
pending recursive call (`none`) freezes the fold. -/
def everyStep (check : String → Option Bool) (acc : Option Bool) (r : Option String) :
    Option Bool :=
  match acc with
  | some true =>
    match r with
    | none => some false
    | some refName => check refName
  | other => other

/-- `modelCanUseMetric`, with fuel standing in for the source's unguarded
recursion (`none` = the JS call would still be recursing). A metric is usable
by a model when its first declared ref is that model, or — for expression
metrics — when every referenced metric is recursively usable. -/
def modelCanUseMetric (fuel : Nat) (metricName modelName : String)
    (metrics : List DbtMetric) : Option Bool :=
  match fuel with
  | 0 => none
  | f + 1 =>
    match metrics.find? (fun m => m.name = metricName) with
    | none => some false
    | some metric =>
      if metric.refs.head?.bind List.head? = some modelName then some true
      else if metric.calculation_method = "expression" then
        (metric.metrics.map List.head?).foldl
          (everyStep (fun refName => modelCanUseMetric f refName modelName metrics))
          (some true)
      else some false

/-- `metrics.filter(m => modelCanUseMetric(m.name, model, metrics))`, with the
possible non-termination of any predicate call propagated. -/
def metricsForModel (fuel : Nat) (metrics : List DbtMetric) (modelName : String) :
    Option (List DbtMetric) :=
  metrics.foldrM
    (fun metric rest => do
      let b ← modelCanUseMetric fuel metric.name modelName metrics
      pure (if b then metric :: rest else rest))
    []

/-- The body of `convertExplores`'s try block for one model: eligible-metric
filtering happened already; convert the table, hit the unimplemented
`loadSources` branch, and attach lineage. -/
def attemptTable (ext : Externals) (adapterType : SupportedDbtAdapter)
    (loadSources : Bool) (tableLineage : Rcd LineageGraph)
    (tableMetrics : List DbtMetric) (model : DbtModelNode) : Except LdError Table := do
  let table ← convertTable ext.convertMetric adapterType model tableMetrics
  if loadSources && model.patch_path.isSome then
    .error (.genericError (some "Not Implemented"))
  else
    pure { toUnlineagedTable := table
           lineageGraph := (getKey tableLineage model.name).getD [] }

/-- One model's complete first-phase outcome: `none` when the eligibility
filter would not terminate, otherwise the `Except` of the try block. -/
def attemptModel (ext : Externals) (fuel : Nat) (adapterType : SupportedDbtAdapter)
    (metrics : List DbtMetric) (loadSources : Bool) (tableLineage : Rcd LineageGraph)
    (model : DbtModelNode) : Option (Except LdError Table) := do
  let tableMetrics ← metricsForModel fuel metrics model.name
  pure (attemptTable ext adapterType loadSources tableLineage tableMetrics model)

/-- The `ExploreError` emitted when a model's table conversion throws: the
error's name as `type`, its message with the generic fallback. -/
def mkPhase1Error (model : DbtModelNode) (e : LdError) : ExploreErrorRec :=
  { name := model.name
    label := jsOr (resolveMeta model).label (friendlyName model.name)
    tags := model.tags
    errors := [(e.errName,
      some (orFallback e.errMessage
        ("Could not convert dbt model: \"" ++ model.name
          ++ "\" in to a Lightdash explore")))] }

/-- One step of the first-phase reduce: append the table or the error. -/
def phase1Step (ext : Externals) (fuel : Nat) (adapterType : SupportedDbtAdapter)
    (metrics : List DbtMetric) (loadSources : Bool) (tableLineage : Rcd LineageGraph)
    (acc : List Table × List ExploreErrorRec) (model : DbtModelNode) :
    Option (List Table × List ExploreErrorRec) :=
  (attemptModel ext fuel adapterType metrics loadSources tableLineage model).map
    (fun r =>
      match r with
      | .ok t => (acc.1 ++ [t], acc.2)
      | .error e => (acc.1, acc.2 ++ [mkPhase1Error model e]))

/-- The first-phase reduce of `convertExplores`. -/
def phase1 (ext : Externals) (fuel : Nat) (adapterType : SupportedDbtAdapter)
    (metrics : List DbtMetric) (loadSources : Bool) (tableLineage : Rcd LineageGraph)
    (models : List DbtModelNode) : Option (List Table × List ExploreErrorRec) :=
  models.foldlM (phase1Step ext fuel adapterType metrics loadSources tableLineage) ([], [])

/-- `tables.reduce((prev, table) => ({...prev, [table.name]: table}), {})`. -/
def tableLookupOf (tables : List Table) : Rcd Table :=
  tables.foldl (fun prev t => setKey prev t.name t) []

/-- The `compileExplore` argument record built for one model. -/
def compileArgsFor (adapterType : SupportedDbtAdapter) (tableLookup : Rcd Table)
    (model : DbtModelNode) : CompileExploreArgs :=
  let meta := resolveMeta model
  { name := model.name
    label := jsOr meta.label (friendlyName model.name)
    tags := model.tags.getD []
    baseTable := model.name
    joinedTables := (meta.joins.getD []).map (fun j => { table := j.join, sqlOn := j.sql_on })
    tables := tableLookup
    targetDatabase := adapterType }

/-- An element of `convertExplores`'s result list. -/
inductive ExploreOrError
  | explore (e : Explore)
  | exploreError (e : ExploreErrorRec)
  deriving DecidableEq, Repr

/-- The second phase for one valid model: compile the join graph, isolating a
failure into an `ExploreError` (no tags, raw message, no fallback). -/
def phase2 (ext : Externals) (adapterType : SupportedDbtAdapter)
    (tableLookup : Rcd Table) (model : DbtModelNode) : ExploreOrError :=
  match ext.compileExplore (compileArgsFor adapterType tableLookup model) with
  | .ok e => .explore e
  | .error e =>
      .exploreError
        { name := model.name
          label := jsOr (resolveMeta model).label (friendlyName model.name)
          tags := none
          errors := [(e.errName, e.errMessage)] }

/-- `convertExplores`: per-model table construction with per-model error
isolation, then join compilation for the models that succeeded, returning
compile-phase outputs followed by the first-phase errors. `none` only when
the unguarded `modelCanUseMetric` recursion would not terminate. -/
def convertExplores (ext : Externals) (fuel : Nat) (models : List DbtModelNode)
    (loadSources : Bool) (adapterType : SupportedDbtAdapter)
    (metrics : List DbtMetric) : Option (List ExploreOrError) := do
  let tableLineage := translateDbtModelsToTableLineage ext models
  let te ← phase1 ext fuel adapterType metrics loadSources tableLineage models
  let tableLookup := tableLookupOf te.1
  let validModels := models.filter (fun m => (getKey tableLookup m.name).isSome)
  pure (validModels.map (phase2 ext adapterType tableLookup)
    ++ te.2.map ExploreOrError.exploreError)

/-- A warehouse catalog: database → schema → table → column → type string. -/
abbrev WarehouseCatalog := Rcd (Rcd (Rcd (Rcd String)))

/-- `Object.keys(r).find(k => caseSensitive ? k === key : lowercase match)`,
with a found empty-string key folded into `none` (the source treats such a
match as falsy at every use site). -/
def findKeyJS {α : Type} (r : Rcd α) (caseSensitiveMatching : Bool) (k : String) :
    Option String :=
  match (keysOf r).find? (fun key =>
    if caseSensitiveMatching then key = k else lowerString key = lowerString k) with
  | some s => if s = "" then none else some s
  | none => none

/-- Resolve a model's `(database, schema, name)` triple to its catalog column
map, level by level, each level matched case-sensitively or not. -/
def lookupTableColumns (warehouseCatalog : WarehouseCatalog)
    (caseSensitiveMatching : Bool) (database schema table : String) :
    Option (Rcd String) := do
  let db ← findKeyJS warehouseCatalog caseSensitiveMatching database
  let schemas ← getKey warehouseCatalog db
  let sch ← findKeyJS schemas caseSensitiveMatching schema
  let tables ← getKey schemas sch
  let tbl ← findKeyJS tables caseSensitiveMatching table
  getKey tables tbl

/-- The inner `getType` of `attachTypesToModels`: resolve one column's type,
throwing or resolving to absent depending on `throwOnMissingCatalogEntry`. -/
def getType (warehouseCatalog : WarehouseCatalog) (throwOnMissingCatalogEntry : Bool)
    (caseSensitiveMatching : Bool) (model : DbtModelNode) (columnName : String) :
    Except LdError (Option String) :=
  let resolved : Option String :=
    match lookupTableColumns warehouseCatalog caseSensitiveMatching
        model.database model.schema model.name with
    | none => none
    | some cols =>
      match findKeyJS cols caseSensitiveMatching columnName with
      | none => none
      | some col => getKey cols col
  match resolved with
  | some t => .ok (some t)
  | none =>
    if throwOnMissingCatalogEntry then
      .error (.missingCatalogEntryError
        ("Column \"" ++ columnName ++ "\" from model \"" ++ model.name
          ++ "\" does not exist.\n \"" ++ model.name ++ "." ++ columnName
          ++ "\" was not found in your target warehouse at " ++ model.database
          ++ "." ++ model.schema ++ "." ++ model.name
          ++ ". Try rerunning dbt to update your warehouse."))
    else .ok none

/-- The per-model update of `attachTypesToModels`: rebuild the column map with
each column's `data_type` replaced by its catalog-resolved type. -/
def attachColumnTypes (warehouseCatalog : WarehouseCatalog)
    (throwOnMissingCatalogEntry : Bool) (caseSensitiveMatching : Bool)
    (model : DbtModelNode) : Except LdError DbtModelNode := do
  let cols ← model.columns.mapM (fun p => do
    let t ← getType warehouseCatalog throwOnMissingCatalogEntry caseSensitiveMatching
      model p.1
    pure (p.1, { p.2 with data_type := t }))
  pure { model with columns := spread [] cols }

/-- `attachTypesToModels`: verify every model against the catalog, then return
the models with each column's `data_type` replaced by its catalog-resolved
type. -/
def attachTypesToModels (models : List DbtModelNode) (warehouseCatalog : WarehouseCatalog)
    (throwOnMissingCatalogEntry : Bool) (caseSensitiveMatching : Bool) :
    Except LdError (List DbtModelNode) := do
  -- Check that all models appear in the warehouse
  models.forM (fun m =>
    if (lookupTableColumns warehouseCatalog caseSensitiveMatching
          m.database m.schema m.name).isNone
        && throwOnMissingCatalogEntry then
      .error (.missingCatalogEntryError
        ("Model \"" ++ m.name ++ "\" was expected in your target warehouse at \""
          ++ m.database ++ "." ++ m.schema ++ "." ++ m.name
          ++ "\". Does the table exist in your target data warehouse?"))
    else .ok ())
  -- Update the dbt models with type info
  models.mapM (attachColumnTypes warehouseCatalog throwOnMissingCatalogEntry
    caseSensitiveMatching)

/-- `getSchemaStructureFromDbtModels`. -/
def getSchemaStructureFromDbtModels (dbtModels : List DbtModelNode) :
    List (String × String × String) :=
  dbtModels.map (fun m => (m.database, m.schema, m.name))

/-! ## Record (`Rcd`) lemmas -/

theorem getKey_setKey_self {α : Type} (r : Rcd α) (k : String) (v : α) :
    getKey (setKey r k v) k = some v := by
  induction r with
  | nil => simp [setKey, getKey]
  | cons p r ih =>
    by_cases h : p.1 = k
    · simp [setKey, getKey, h]
    · simp [setKey, getKey, h, ih]

theorem getKey_setKey_ne {α : Type} (r : Rcd α) (k k' : String) (v : α) (h : k ≠ k') :
    getKey (setKey r k v) k' = getKey r k' := by
  induction r with
  | nil => simp [setKey, getKey, h]
  | cons p r ih =>
    by_cases hp : p.1 = k
    · simp [setKey, getKey, hp, h]
    · simp only [setKey, if_neg hp]
      by_cases hp' : p.1 = k'
      · simp [getKey, hp']
      · simp [getKey, hp', ih]

theorem mem_keysOf_setKey {α : Type} (r : Rcd α) (k k' : String) (v : α) :
    k' ∈ keysOf (setKey r k v) ↔ (k' = k ∨ k' ∈ keysOf r) := by
  induction r with
  | nil => simp [setKey, keysOf, eq_comm]
  | cons p r ih =>
    by_cases hp : p.1 = k
    · subst hp
      simp [setKey, keysOf]
      try tauto
    · simp only [setKey, if_neg hp, keysOf, List.map_cons, List.mem_cons] at ih ⊢
      rw [ih]
      tauto

theorem nodupKeys_setKey {α : Type} (r : Rcd α) (k : String) (v : α)
    (h : NodupKeys r) : NodupKeys (setKey r k v) := by
  induction r with
  | nil => simp [NodupKeys, setKey, keysOf]
  | cons p r ih =>
    simp only [NodupKeys, keysOf, List.map_cons, List.nodup_cons] at h
    by_cases hp : p.1 = k
    · subst hp
      simpa [NodupKeys, setKey, keysOf, List.nodup_cons] using h
    · have ih' := ih h.2
      simp only [NodupKeys, setKey, if_neg hp, keysOf, List.map_cons, List.nodup_cons]
      refine ⟨?_, ih'⟩
      intro hmem
      rcases (mem_keysOf_setKey r k p.1 v).1 hmem with h1 | h1
      · exact hp h1
      · exact h.1 h1

theorem spread_nil_right {α : Type} (a : Rcd α) : spread a [] = a := rfl

theorem spread_cons {α : Type} (a : Rcd α) (p : String × α) (b : Rcd α) :
    spread a (p :: b) = spread (setKey a p.1 p.2) b := rfl

theorem spread_append {α : Type} (a b c : Rcd α) :
    spread a (b ++ c) = spread (spread a b) c := by
  simp [spread, List.foldl_append]

theorem getKey_spread_not_mem {α : Type} (a b : Rcd α) (k : String)
    (h : k ∉ keysOf b) : getKey (spread a b) k = getKey a k := by
  induction b generalizing a with
  | nil => rfl
  | cons p b ih =>
    simp only [keysOf, List.map_cons, List.mem_cons, not_or] at h
    rw [spread_cons, ih _ (by simpa [keysOf] using h.2),
      getKey_setKey_ne _ _ _ _ (fun hk => h.1 hk.symm)]

theorem getKey_spread_uniform {α : Type} (a b : Rcd α) (k : String) (v : α)
    (hex : k ∈ keysOf b) (huni : ∀ p ∈ b, p.1 = k → p.2 = v) :
    getKey (spread a b) k = some v := by
  induction b generalizing a with
  | nil => simp [keysOf] at hex
  | cons p b ih =>
    by_cases hmem : k ∈ keysOf b
    · rw [spread_cons]
      exact ih _ hmem (fun q hq => huni q (List.mem_cons_of_mem p hq))
    · have hp : p.1 = k := by
        rcases List.mem_cons.1 (by simpa [keysOf] using hex : k ∈ p.1 :: keysOf b)
          with h | h
        · exact h.symm
        · exact absurd h hmem
      have hv : p.2 = v := huni p (List.mem_cons_self p b) hp
      rw [spread_cons, getKey_spread_not_mem _ _ _ hmem, hp, hv, getKey_setKey_self]

theorem nodupKeys_spread {α : Type} (a b : Rcd α) (h : NodupKeys a) :
    NodupKeys (spread a b) := by
  induction b generalizing a with
  | nil => exact h
  | cons p b ih => exact ih _ (nodupKeys_setKey _ _ _ h)

theorem getKey_isSome_iff_mem_keysOf {α : Type} (r : Rcd α) (k : String) :
    (getKey r k).isSome = true ↔ k ∈ keysOf r := by
  induction r with
  | nil => simp [getKey, keysOf]
  | cons p r ih =>
    by_cases hp : p.1 = k
    · simp [getKey, hp, keysOf]
    · simp only [getKey, if_neg hp, keysOf, List.map_cons, List.mem_cons]
      rw [ih]
      constructor
      · intro h
        exact Or.inr h
      · rintro (h | h)
        · exact absurd h.symm hp
        · exact h

theorem getKey_eq_of_nodup_mem {α : Type} (r : Rcd α) (p : String × α)
    (hnd : NodupKeys r) (hp : p ∈ r) : getKey r p.1 = some p.2 := by
  induction r with
  | nil => simp at hp
  | cons q r ih =>
    simp only [NodupKeys, keysOf, List.map_cons, List.nodup_cons] at hnd
    rcases List.mem_cons.1 hp with h | h
    · subst h
      simp [getKey]
    · have hne : q.1 ≠ p.1 := by
        intro he
        exact hnd.1 (he ▸ List.mem_map_of_mem Prod.fst h)
      simp only [getKey, if_neg hne]
      exact ih hnd.2 h

/-! ## `convertDimension` characterization -/

/-- The type string `convertDimension` resolves for a column:
`meta.dimension?.type || data_type || "string"`. -/
def resolvedTypeOf (column : DbtModelColumn) : String :=
  jsOr (column.meta.dimension.bind (fun d => d.type)) (jsOr column.data_type "string")

theorem convertDimension_error_of_not_contains (tw : SupportedDbtAdapter)
    (model : DbtModelNode) (tableLabel : String) (column : DbtModelColumn)
    (source : Option Source) (ti : Option TimeFrames)
    (h : dimensionTypeValues.contains (resolvedTypeOf column) = false) :
    convertDimension tw model tableLabel column source ti =
      .error (.missingCatalogEntryError
        ("Could not recognise type \"" ++ resolvedTypeOf column ++ "\" for dimension \""
          ++ column.name ++ "\" in dbt model \"" ++ model.name ++ "\". Valid types are: "
          ++ String.intercalate ", " dimensionTypeValues)) := by
  rw [show resolvedTypeOf column = jsOr (column.meta.dimension.bind (fun d => d.type))
    (jsOr column.data_type "string") from rfl] at h ⊢
  simp only [convertDimension, h]
  simp

theorem convertDimension_ok_of_contains (tw : SupportedDbtAdapter)
    (model : DbtModelNode) (tableLabel : String) (column : DbtModelColumn)
    (source : Option Source) (ti : Option TimeFrames)
    (h : dimensionTypeValues.contains (resolvedTypeOf column) = true) :
    ∃ d, convertDimension tw model tableLabel column source ti = .ok d := by
  rw [show resolvedTypeOf column = jsOr (column.meta.dimension.bind (fun d => d.type))
    (jsOr column.data_type "string") from rfl] at h
  simp only [convertDimension, h]
  simp

theorem convertDimension_base_fields (tw : SupportedDbtAdapter)
    (model : DbtModelNode) (tableLabel : String) (column : DbtModelColumn)
    (source : Option Source) (d : Dimension)
    (hok : convertDimension tw model tableLabel column source none = .ok d) :
    d.type = resolvedTypeOf column ∧ d.group = none ∧ d.timeInterval = none := by
  by_cases h : dimensionTypeValues.contains (resolvedTypeOf column) = true
  · rw [show resolvedTypeOf column = jsOr (column.meta.dimension.bind (fun d => d.type))
      (jsOr column.data_type "string") from rfl] at h ⊢
    simp only [convertDimension, h] at hok
    simp only [Bool.true_eq_false, if_false, Except.ok.injEq] at hok
    subst hok
    exact ⟨rfl, rfl, rfl⟩
  · rw [convertDimension_error_of_not_contains tw model tableLabel column source none
      (by simpa using h)] at hok
    exact absurd hok (by simp)

theorem convertDimension_interval_fields (tw : SupportedDbtAdapter)
    (model : DbtModelNode) (tableLabel : String) (column : DbtModelColumn)
    (source : Option Source) (ti : TimeFrames) (d : Dimension)
    (hok : convertDimension tw model tableLabel column source (some ti) = .ok d) :
    d.name = column.name ++ "_" ++ lowerString ti.toStr
      ∧ d.group = some column.name ∧ d.timeInterval = some ti := by
  by_cases h : dimensionTypeValues.contains (resolvedTypeOf column) = true
  · rw [show resolvedTypeOf column = jsOr (column.meta.dimension.bind (fun d => d.type))
      (jsOr column.data_type "string") from rfl] at h
    simp only [convertDimension, h] at hok
    simp only [Bool.true_eq_false, if_false, Except.ok.injEq] at hok
    subst hok
    exact ⟨rfl, rfl, rfl⟩
  · rw [convertDimension_error_of_not_contains tw model tableLabel column source (some ti)
      (by simpa using h)] at hok
    exact absurd hok (by simp)

theorem lowerString_toStr (t : TimeFrames) : lowerString t.toStr = t.toStr := by
  cases t <;> decide

/-! ## C4: expression-metric SQL synthesis -/

theorem foldl_map_headOpt_eq_filterMap (l : List (List String))
    (hne : ∀ x ∈ l, x ≠ []) (e : String)
    (step : String → String → String) :
    (l.map List.head?).foldl
        (fun s r => match r with
          | some ref => step s ref
          | none => s) e
      = (l.filterMap List.head?).foldl step e := by
  induction l generalizing e with
  | nil => rfl
  | cons x l ih =>
    rcases x with _ | ⟨c, x⟩
    · exact absurd rfl (hne [] (List.mem_cons_self _ _))
    · simp only [List.map_cons, List.head?, List.filterMap_cons, List.foldl_cons]
      exact ih (fun y hy => hne y (List.mem_cons_of_mem _ hy)) _

/-- C4 (amended: the plain-substitution form of the SQL additionally requires
the metric to declare no `filters`, since declared filters wrap the SQL in a
`CASE WHEN` guard after substitution): for an expression metric with a
non-empty `expression` and no filters, the result has type NUMBER and its SQL
is the expression with every referenced metric name (first element of each
`metrics` entry, in order) globally replaced by its `$\x7bname\x7d`
placeholder; an expression metric without an `expression` field throws a
`ParseError`. -/
theorem convertDbtMetric_expression_subst (metric : DbtMetric)
    (tableName tableLabel : String)
    (hcalc : metric.calculation_method = "expression") :
    (∀ e, metric.expression = some e → e ≠ "" → metric.filters = [] →
      (∀ x ∈ metric.metrics, x ≠ []) →
      (convertDbtMetricToLightdashMetric metric tableName tableLabel).map
          (fun m => (m.type, m.sql))
        = .ok (MetricType.NUMBER,
            (metric.metrics.filterMap List.head?).foldl
              (fun s ref => replaceAll s ref ("$\x7b" ++ ref ++ "\x7d")) e))
    ∧ (metric.expression = none →
        convertDbtMetricToLightdashMetric metric tableName tableLabel
          = .error (.parseError ("dbt expression metric \"" ++ metric.name
              ++ "\" must have the sql field set"))) := by
  constructor
  · intro e he hne hfil hrefs
    rw [← foldl_map_headOpt_eq_filterMap metric.metrics hrefs e
      (fun s ref => replaceAll s ref ("$\x7b" ++ ref ++ "\x7d"))]
    simp [convertDbtMetricToLightdashMetric, hcalc, he, hne, hfil, Except.map, pure,
      Except.pure, bind, Except.bind]
  · intro he
    simp [convertDbtMetricToLightdashMetric, hcalc, he]

/-- Concrete expression metric carrying a filter: the spec's scenario metric
plus one declared filter. -/
def c4FilteredMetric : DbtMetric :=
  { unique_id := "metric.proj.net"
    name := "net"
    label := none
    description := none
    calculation_method := "expression"
    expression := some "total_revenue - total_cost"
    filters := [{ field := "status", operator := "=", value := "1" }]
    metrics := [["total_revenue"], ["total_cost"]]
    refs := [["orders"]]
    meta := none }

/-- C4 counterexample: with a declared filter the returned SQL is the CASE WHEN
guard, not the bare substituted expression the claim asserts for every
expression metric. -/
theorem convertDbtMetric_filters_cex :
    (convertDbtMetricToLightdashMetric c4FilteredMetric "orders" "Orders").map
        (fun m => m.sql)
      = .ok ("CASE WHEN ($\x7bTABLE\x7d.status = 1) THEN "
          ++ "$\x7btotal_revenue\x7d - $\x7btotal_cost\x7d ELSE NULL END")
    ∧ ("CASE WHEN ($\x7bTABLE\x7d.status = 1) THEN "
          ++ "$\x7btotal_revenue\x7d - $\x7btotal_cost\x7d ELSE NULL END"
        ≠ "$\x7btotal_revenue\x7d - $\x7btotal_cost\x7d") := by
  constructor
  · rfl
  · decide

/-- The spec's scenario expression metric, without filters. -/
def c4PlainMetric : DbtMetric :=
  { unique_id := "metric.proj.net"
    name := "net"
    label := none
    description := none
    calculation_method := "expression"
    expression := some "total_revenue - total_cost"
    filters := []
    metrics := [["total_revenue"], ["total_cost"]]
    refs := [["orders"]]
    meta := none }

/-- C4 witness: the amended theorem applied to the spec's scenario metric. -/
theorem convertDbtMetric_expression_subst_witness :
    (convertDbtMetricToLightdashMetric c4PlainMetric "orders" "Orders").map
        (fun m => (m.type, m.sql))
      = .ok (MetricType.NUMBER,
          (c4PlainMetric.metrics.filterMap List.head?).foldl
            (fun s ref => replaceAll s ref ("$\x7b" ++ ref ++ "\x7d"))
            "total_revenue - total_cost") :=
  (convertDbtMetric_expression_subst c4PlainMetric "orders" "Orders" rfl).1
    "total_revenue - total_cost" rfl (by decide) rfl (by decide)

/-! ## `convertTable` lemmas: C3 (collision check) and C6 (merge priority) -/

theorem bindings_uniform_of_nodup {α : Type} (r : Rcd α) (k : String) (v : α)
    (hnd : NodupKeys r) (h : getKey r k = some v) :
    ∀ p ∈ r, p.1 = k → p.2 = v := by
  intro p hp hk
  have := getKey_eq_of_nodup_mem r p hnd hp
  rw [hk, h] at this
  exact (Option.some.injEq _ _ ▸ this.symm)

theorem convertColumns_fold_nodup
    (convMetric : ConvertMetricArgs → Except LdError Metric)
    (adapterType : SupportedDbtAdapter) (model : DbtModelNode) (tableLabel : String)
    (cols : List DbtModelColumn) (init : Rcd Dimension × Rcd Metric)
    (out : Rcd Dimension × Rcd Metric)
    (hd : NodupKeys init.1) (hm : NodupKeys init.2)
    (h : cols.foldlM
        (fun acc column => do
          let contrib ← columnContrib convMetric adapterType model tableLabel column
          pure (spread acc.1 contrib.1, spread acc.2 contrib.2))
        init = .ok out) :
    NodupKeys out.1 ∧ NodupKeys out.2 := by
  induction cols generalizing init with
  | nil =>
    simp only [List.foldlM_nil, pure, Except.pure, Except.ok.injEq] at h
    subst h
    exact ⟨hd, hm⟩
  | cons c cols ih =>
    rw [List.foldlM_cons] at h
    cases hc : columnContrib convMetric adapterType model tableLabel c with
    | error e => simp [hc, bind, Except.bind] at h
    | ok contrib =>
      simp only [hc, bind, Except.bind, pure, Except.pure] at h
      exact ih _ (nodupKeys_spread _ _ hd) (nodupKeys_spread _ _ hm) h

theorem convertColumns_nodupKeys
    (convMetric : ConvertMetricArgs → Except LdError Metric)
    (adapterType : SupportedDbtAdapter) (model : DbtModelNode) (tableLabel : String)
    (dims : Rcd Dimension) (mets : Rcd Metric)
    (h : convertColumns convMetric adapterType model tableLabel = .ok (dims, mets)) :
    NodupKeys dims ∧ NodupKeys mets :=
  convertColumns_fold_nodup convMetric adapterType model tableLabel _ ([], [])
    (dims, mets) (by simp [NodupKeys, keysOf]) (by simp [NodupKeys, keysOf]) h

/-- C3: after merging dbt-native and column-embedded metrics, `convertTable`
fails with a `ParseError` exactly when a merged metric key is also a dimension
key; the message lists every colliding name (comma-joined), with the plural
prefix for more than one collision and the singular prefix for exactly one;
without collisions no `ParseError` is possible at this point. -/
theorem convertTable_duplicate_name_check
    (convMetric : ConvertMetricArgs → Except LdError Metric)
    (adapterType : SupportedDbtAdapter) (model : DbtModelNode)
    (dbtMetrics : List DbtMetric)
    (dims : Rcd Dimension) (mets : Rcd Metric) (cdm : Rcd Metric)
    (hcompiled : model.compiled = true)
    (hcols : convertColumns convMetric adapterType model (tableLabelOf model)
      = .ok (dims, mets))
    (hdbt : convertDbtMetrics dbtMetrics model.name (tableLabelOf model) = .ok cdm) :
    (∀ k, k ∈ duplicatedNamesOf dims (spread cdm mets) ↔
        (k ∈ keysOf (spread cdm mets) ∧ k ∈ keysOf dims))
    ∧ (duplicatedNamesOf dims (spread cdm mets) ≠ [] →
        convertTable convMetric adapterType model dbtMetrics
          = .error (.parseError
              ((if (duplicatedNamesOf dims (spread cdm mets)).length > 1 then
                  "Found multiple metrics and a dimensions with the same name:"
                else
                  "Found a metric and a dimension with the same name:")
                ++ " " ++ String.intercalate ","
                  (duplicatedNamesOf dims (spread cdm mets)))))
    ∧ (duplicatedNamesOf dims (spread cdm mets) = [] →
        ∀ s, convertTable convMetric adapterType model dbtMetrics
          ≠ .error (.parseError s)) := by
  refine ⟨?_, ?_, ?_⟩
  · intro k
    simp [duplicatedNamesOf, List.mem_filter, List.contains, List.elem_iff, and_comm]
  · intro hdup
    have hlen : (duplicatedNamesOf dims (spread cdm mets)).length > 0 :=
      List.length_pos.2 hdup
    simp only [convertTable, hcompiled, hcols, hdbt, bind, Except.bind, Bool.true_eq_false,
      if_false]
    rw [if_pos hlen]
  · intro hdup s
    have hlen : ¬ (duplicatedNamesOf dims (spread cdm mets)).length > 0 := by
      simp [hdup]
    simp only [convertTable, hcompiled, hcols, hdbt, bind, Except.bind, Bool.true_eq_false,
      if_false]
    rw [if_neg hlen]
    cases model.relation_name with
    | none => simp
    | some rel =>
      by_cases hrel : rel = ""
      · simp [hrel]
      · simp [hrel]

/-- C6: when a dbt-native metric and a column-embedded metric share a name, the
merged metric map (and the metric map of any successfully converted table)
holds the column-embedded metric — native metrics are spread first and
overwritten by same-named embedded metrics. -/
theorem convertTable_embedded_metric_priority
    (convMetric : ConvertMetricArgs → Except LdError Metric)
    (adapterType : SupportedDbtAdapter) (model : DbtModelNode)
    (dbtMetrics : List DbtMetric)
    (dims : Rcd Dimension) (mets : Rcd Metric) (cdm : Rcd Metric)
    (k : String) (m : Metric)
    (hcompiled : model.compiled = true)
    (hcols : convertColumns convMetric adapterType model (tableLabelOf model)
      = .ok (dims, mets))
    (hdbt : convertDbtMetrics dbtMetrics model.name (tableLabelOf model) = .ok cdm)
    (hnative : k ∈ keysOf cdm)
    (hembed : getKey mets k = some m) :
    getKey (spread cdm mets) k = some m
    ∧ ∀ table, convertTable convMetric adapterType model dbtMetrics = .ok table →
        getKey table.metrics k = some m := by
  have hnd := (convertColumns_nodupKeys convMetric adapterType model
    (tableLabelOf model) dims mets hcols).2
  have hmem : k ∈ keysOf mets :=
    (getKey_isSome_iff_mem_keysOf mets k).1 (by rw [hembed]; rfl)
  have hmain : getKey (spread cdm mets) k = some m :=
    getKey_spread_uniform cdm mets k m hmem
      (bindings_uniform_of_nodup mets k m hnd hembed)
  refine ⟨hmain, ?_⟩
  intro table hok
  by_cases hlen : (duplicatedNamesOf dims (spread cdm mets)).length > 0
  · simp [convertTable, hcompiled, hcols, hdbt, bind, Except.bind, hlen] at hok
  · cases hr : model.relation_name with
    | none => simp [convertTable, hcompiled, hcols, hdbt, bind, Except.bind, hlen, hr] at hok
    | some rel =>
      by_cases hrel : rel = ""
      · simp [convertTable, hcompiled, hcols, hdbt, bind, Except.bind, hlen, hr, hrel] at hok
      · simp [convertTable, hcompiled, hcols, hdbt, bind, Except.bind, hlen, hr, hrel] at hok
        rw [← hok]
        exact hmain

instance exceptDecEq {ε α : Type} [DecidableEq ε] [DecidableEq α] :
    DecidableEq (Except ε α) := fun a b =>
  match a, b with
  | .ok x, .ok y =>
      if h : x = y then isTrue (by rw [h])
      else isFalse (by intro he; cases he; exact h rfl)
  | .error x, .error y =>
      if h : x = y then isTrue (by rw [h])
      else isFalse (by intro he; cases he; exact h rfl)
  | .ok _, .error _ => isFalse (by intro he; cases he)
  | .error _, .ok _ => isFalse (by intro he; cases he)

/-- A `convertMetric` stand-in for witness models without embedded metrics. -/
def c3ConvMetric : ConvertMetricArgs → Except LdError Metric := fun _ =>
  .error (.parseError "unused")

/-- Witness model for C3: one plain NUMBER column named `total`. -/
def c3Model : DbtModelNode :=
  { unique_id := "model.proj.orders"
    name := "orders"
    database := "db"
    schema := "public"
    relation_name := some "\"db\".\"public\".\"orders\""
    description := none
    columns := [("total",
      { name := "total", description := none,
        meta := { dimension := none, metrics := [] }, data_type := some "number" })]
    config_meta := none
    meta := { label := none, joins := none }
    tags := some []
    patch_path := none
    compiled := true }

/-- Witness dbt metric for C3: a `sum` metric whose name collides with the
`total` dimension. -/
def c3Metric : DbtMetric :=
  { unique_id := "metric.proj.total"
    name := "total"
    label := none
    description := none
    calculation_method := "sum"
    expression := some "amount"
    filters := []
    metrics := []
    refs := [["orders"]]
    meta := none }

/-- The concrete column-phase output for the C3 witness model. -/
def c3DM : Rcd Dimension × Rcd Metric :=
  match convertColumns c3ConvMetric .postgres c3Model (tableLabelOf c3Model) with
  | .ok dm => dm
  | .error _ => ([], [])

/-- The concrete converted dbt-native metrics for the C3 witness model. -/
def c3Cdm : Rcd Metric :=
  match convertDbtMetrics [c3Metric] c3Model.name (tableLabelOf c3Model) with
  | .ok r => r
  | .error _ => []

/-- C3 witness: the collision check at a concrete colliding input. -/
theorem convertTable_duplicate_name_check_witness :
    convertTable c3ConvMetric .postgres c3Model [c3Metric]
      = .error (.parseError
          ("Found a metric and a dimension with the same name: total")) := by
  have h := (convertTable_duplicate_name_check c3ConvMetric .postgres c3Model [c3Metric]
    c3DM.1 c3DM.2 c3Cdm rfl rfl rfl).2.1 (by decide)
  rw [h]
  decide

/-- A `convertMetric` stand-in producing a COUNT metric over the owning
dimension, for witness models with embedded metrics. -/
def c6ConvMetric : ConvertMetricArgs → Except LdError Metric := fun a =>
  .ok { fieldType := .metric, type := .COUNT, isAutoGenerated := false, name := a.name,
        label := a.name, table := a.modelName, tableLabel := a.tableLabel,
        sql := a.dimensionSql, description := none, source := none, hidden := false,
        round := none, compact := none, format := none, groupLabel := none,
        showUnderlyingValues := none, filters := [], urls := none }

/-- Witness model for C6: an `amount` column carrying an embedded metric named
`revenue`. -/
def c6Model : DbtModelNode :=
  { unique_id := "model.proj.orders"
    name := "orders"
    database := "db"
    schema := "public"
    relation_name := some "\"db\".\"public\".\"orders\""
    description := none
    columns := [("amount",
      { name := "amount", description := none,
        meta := { dimension := none, metrics := [("revenue", "spec")] },
        data_type := some "number" })]
    config_meta := none
    meta := { label := none, joins := none }
    tags := some []
    patch_path := none
    compiled := true }

/-- Witness dbt-native metric for C6, sharing the embedded metric's name. -/
def c6DbtMetric : DbtMetric :=
  { unique_id := "metric.proj.revenue"
    name := "revenue"
    label := none
    description := none
    calculation_method := "sum"
    expression := some "amount"
    filters := []
    metrics := []
    refs := [["orders"]]
    meta := none }

/-- The concrete column-phase output for the C6 witness model. -/
def c6DM : Rcd Dimension × Rcd Metric :=
  match convertColumns c6ConvMetric .postgres c6Model (tableLabelOf c6Model) with
  | .ok dm => dm
  | .error _ => ([], [])

/-- The concrete converted dbt-native metrics for the C6 witness model. -/
def c6Cdm : Rcd Metric :=
  match convertDbtMetrics [c6DbtMetric] c6Model.name (tableLabelOf c6Model) with
  | .ok r => r
  | .error _ => []

/-- The column-embedded `revenue` metric the C6 merge must keep. -/
def c6Embedded : Metric :=
  { fieldType := .metric, type := .COUNT, isAutoGenerated := false, name := "revenue",
    label := "revenue", table := "orders", tableLabel := "orders",
    sql := "$\x7bTABLE\x7d.amount", description := none, source := none, hidden := false,
    round := none, compact := none, format := none, groupLabel := none,
    showUnderlyingValues := none, filters := [], urls := none }

/-- C6 witness: the merge-priority theorem at a concrete shared name. -/
theorem convertTable_embedded_metric_priority_witness :
    getKey (spread c6Cdm c6DM.2) "revenue" = some c6Embedded
    ∧ ∀ table, convertTable c6ConvMetric .postgres c6Model [c6DbtMetric] = .ok table →
        getKey table.metrics "revenue" = some c6Embedded :=
  convertTable_embedded_metric_priority c6ConvMetric .postgres c6Model [c6DbtMetric]
    c6DM.1 c6DM.2 c6Cdm "revenue" c6Embedded rfl rfl rfl (by decide) (by decide)

/-! ## C5 and C9: `modelCanUseMetric` -/

theorem everyStep_foldl_false (check : String → Option Bool) (l : List (Option String)) :
    l.foldl (everyStep check) (some false) = some false := by
  induction l with
  | nil => rfl
  | cons r l ih => simpa [everyStep] using ih

theorem everyStep_foldl_none (check : String → Option Bool) (l : List (Option String)) :
    l.foldl (everyStep check) none = none := by
  induction l with
  | nil => rfl
  | cons r l ih => simpa [everyStep] using ih

theorem everyStep_foldl_true_mem (check : String → Option Bool) (l : List (Option String))
    (h : l.foldl (everyStep check) (some true) = some true) :
    ∀ r ∈ l, ∃ n, r = some n ∧ check n = some true := by
  induction l with
  | nil => simp
  | cons r l ih =>
    intro r' hr'
    rw [List.foldl_cons] at h
    cases r with
    | none =>
      rw [show everyStep check (some true) none = some false from rfl,
        everyStep_foldl_false] at h
      exact absurd h (by simp)
    | some n =>
      rw [show everyStep check (some true) (some n) = check n from rfl] at h
      cases hc : check n with
      | none => rw [hc, everyStep_foldl_none] at h; exact absurd h (by simp)
      | some c =>
        cases c with
        | false => rw [hc, everyStep_foldl_false] at h; exact absurd h (by simp)
        | true =>
          rw [hc] at h
          rcases List.mem_cons.1 hr' with h' | h'
          · exact ⟨n, h', hc⟩
          · exact ih h r' h'

theorem everyStep_foldl_true_of (check : String → Option Bool) (l : List (Option String))
    (h : ∀ r ∈ l, ∃ n, r = some n ∧ check n = some true) :
    l.foldl (everyStep check) (some true) = some true := by
  induction l with
  | nil => rfl
  | cons r l ih =>
    obtain ⟨n, hn, hc⟩ := h r (List.mem_cons_self r l)
    subst hn
    rw [List.foldl_cons, show everyStep check (some true) (some n) = check n from rfl, hc]
    exact ih (fun r' hr' => h r' (List.mem_cons_of_mem _ hr'))

theorem everyStep_foldl_isSome (check : String → Option Bool) (l : List (Option String))
    (h : ∀ n, some n ∈ l → (check n).isSome = true) :
    (l.foldl (everyStep check) (some true)).isSome = true := by
  induction l with
  | nil => rfl
  | cons r l ih =>
    rw [List.foldl_cons]
    cases r with
    | none =>
      rw [show everyStep check (some true) none = some false from rfl, everyStep_foldl_false]
      rfl
    | some n =>
      rw [show everyStep check (some true) (some n) = check n from rfl]
      cases hc : check n with
      | none => exact absurd (hc ▸ h n (List.mem_cons_self _ _)) (by simp)
      | some c =>
        cases c with
        | false => rw [everyStep_foldl_false]; rfl
        | true => exact ih (fun n' hn' => h n' (List.mem_cons_of_mem _ hn'))

theorem everyStep_foldl_run_true (check : String → Option Bool) (l : List (Option String))
    (b : Bool)
    (hprem : ∀ r ∈ l, ∃ n, r = some n ∧ ∀ b', check n = some b' → b' = true)
    (h : l.foldl (everyStep check) (some true) = some b) : b = true := by
  induction l with
  | nil =>
    simp only [List.foldl_nil, Option.some.injEq] at h
    exact h.symm
  | cons r l ih =>
    obtain ⟨n, hn, hp⟩ := hprem r (List.mem_cons_self r l)
    subst hn
    rw [List.foldl_cons, show everyStep check (some true) (some n) = check n from rfl] at h
    cases hc : check n with
    | none => rw [hc, everyStep_foldl_none] at h; exact absurd h (by simp)
    | some c =>
      cases c with
      | false => exact absurd (hp false hc) (by simp)
      | true =>
        rw [hc] at h
        exact ih (fun r' hr' => hprem r' (List.mem_cons_of_mem _ hr')) h

/-- The least fixed point of the spec's recursive usability definition: a
metric name is usable by a model when its (first-found) metric's first ref is
the model, or when it is an expression metric all of whose referenced names
are present and recursively usable. -/
inductive CanUse (metrics : List DbtMetric) (modelName : String) : String → Prop
  | direct (name : String) (m : DbtMetric)
      (hfind : metrics.find? (fun x => x.name = name) = some m)
      (href : m.refs.head?.bind List.head? = some modelName) :
      CanUse metrics modelName name
  | viaExpression (name : String) (m : DbtMetric)
      (hfind : metrics.find? (fun x => x.name = name) = some m)
      (hexpr : m.calculation_method = "expression")
      (hne : ∀ r ∈ m.metrics.map List.head?, r.isSome = true)
      (hall : ∀ n : String, some n ∈ m.metrics.map List.head? →
        CanUse metrics modelName n) :
      CanUse metrics modelName name

theorem modelCanUseMetric_succ_none (f : Nat) (name modelName : String)
    (metrics : List DbtMetric)
    (hfind : metrics.find? (fun x => x.name = name) = none) :
    modelCanUseMetric (f + 1) name modelName metrics = some false := by
  rw [modelCanUseMetric, hfind]

theorem modelCanUseMetric_succ_eq (f : Nat) (name modelName : String)
    (metrics : List DbtMetric) (metric : DbtMetric)
    (hfind : metrics.find? (fun x => x.name = name) = some metric) :
    modelCanUseMetric (f + 1) name modelName metrics =
      if metric.refs.head?.bind List.head? = some modelName then some true
      else if metric.calculation_method = "expression" then
        (metric.metrics.map List.head?).foldl
          (everyStep (fun refName => modelCanUseMetric f refName modelName metrics))
          (some true)
      else some false := by
  rw [modelCanUseMetric, hfind]

theorem canUse_of_run_true (metrics : List DbtMetric) (modelName : String) :
    ∀ fuel name, modelCanUseMetric fuel name modelName metrics = some true →
      CanUse metrics modelName name := by
  intro fuel
  induction fuel with
  | zero => intro name h; exact absurd h (by simp [modelCanUseMetric])
  | succ f ih =>
    intro name h
    cases hfind : metrics.find? (fun x => x.name = name) with
    | none =>
      rw [modelCanUseMetric_succ_none f name modelName metrics hfind] at h
      exact absurd h (by simp)
    | some metric =>
      rw [modelCanUseMetric_succ_eq f name modelName metrics metric hfind] at h
      by_cases href : metric.refs.head?.bind List.head? = some modelName
      · exact CanUse.direct name metric hfind href
      · rw [if_neg href] at h
        by_cases hexpr : metric.calculation_method = "expression"
        · rw [if_pos hexpr] at h
          have hmem := everyStep_foldl_true_mem _ _ h
          refine CanUse.viaExpression name metric hfind hexpr ?_ ?_
          · intro r hr
            obtain ⟨n, hn, _⟩ := hmem r hr
            rw [hn]
            rfl
          · intro n hn
            obtain ⟨n', hn', hc⟩ := hmem (some n) hn
            have : n' = n := by
              simpa [eq_comm] using hn'
            exact ih n (this ▸ hc)
        · rw [if_neg hexpr] at h
          exact absurd h (by simp)

theorem run_true_of_canUse (metrics : List DbtMetric) (modelName : String) :
    ∀ fuel name b, CanUse metrics modelName name →
      modelCanUseMetric fuel name modelName metrics = some b → b = true := by
  intro fuel
  induction fuel with
  | zero => intro name b _ h; exact absurd h (by simp [modelCanUseMetric])
  | succ f ih =>
    intro name b hcu h
    cases hcu with
    | direct _ m hfind href =>
      rw [modelCanUseMetric_succ_eq f name modelName metrics m hfind, if_pos href] at h
      simpa [eq_comm] using h
    | viaExpression _ m hfind hexpr hne hall =>
      rw [modelCanUseMetric_succ_eq f name modelName metrics m hfind] at h
      by_cases href : m.refs.head?.bind List.head? = some modelName
      · rw [if_pos href] at h
        simpa [eq_comm] using h
      · rw [if_neg href, if_pos hexpr] at h
        refine everyStep_foldl_run_true _ _ b ?_ h
        intro r hr
        cases r with
        | none => exact absurd (hne none hr) (by simp)
        | some n =>
          exact ⟨n, rfl, fun b' hb' => ih n b' (hall n hr) hb'⟩

/-- C5: for a metric name found in the list, a terminating
`modelCanUseMetric` run returns `true` exactly when the metric's first
declared model reference is the model, or the metric is an expression metric
and every referenced metric name is (recursively) usable by that model; in
particular a non-expression metric whose first ref is a different model is
not usable. -/
theorem modelCanUseMetric_characterization
    (metrics : List DbtMetric) (modelName name : String) (m : DbtMetric)
    (fuel : Nat) (b : Bool)
    (hfind : metrics.find? (fun x => x.name = name) = some m)
    (hrun : modelCanUseMetric fuel name modelName metrics = some b) :
    b = true ↔
      (m.refs.head?.bind List.head? = some modelName
        ∨ (m.calculation_method = "expression"
            ∧ ∀ r ∈ m.metrics.map List.head?,
                ∃ n, r = some n ∧ CanUse metrics modelName n)) := by
  constructor
  · intro hb
    subst hb
    cases fuel with
    | zero => exact absurd hrun (by simp [modelCanUseMetric])
    | succ f =>
      rw [modelCanUseMetric_succ_eq f name modelName metrics m hfind] at hrun
      by_cases href : m.refs.head?.bind List.head? = some modelName
      · exact Or.inl href
      · rw [if_neg href] at hrun
        by_cases hexpr : m.calculation_method = "expression"
        · rw [if_pos hexpr] at hrun
          refine Or.inr ⟨hexpr, ?_⟩
          intro r hr
          obtain ⟨n, hn, hc⟩ := everyStep_foldl_true_mem _ _ hrun r hr
          exact ⟨n, hn, canUse_of_run_true metrics modelName f n hc⟩
        · rw [if_neg hexpr] at hrun
          exact absurd hrun (by simp)
  · intro hside
    cases fuel with
    | zero => exact absurd hrun (by simp [modelCanUseMetric])
    | succ f =>
      rw [modelCanUseMetric_succ_eq f name modelName metrics m hfind] at hrun
      rcases hside with href | ⟨hexpr, hall⟩
      · rw [if_pos href] at hrun
        simpa [eq_comm] using hrun
      · by_cases href : m.refs.head?.bind List.head? = some modelName
        · rw [if_pos href] at hrun
          simpa [eq_comm] using hrun
        · rw [if_neg href, if_pos hexpr] at hrun
          refine everyStep_foldl_run_true _ _ b ?_ hrun
          intro r hr
          obtain ⟨n, hn, hcu⟩ := hall r hr
          exact ⟨n, hn, fun b' hb' => run_true_of_canUse metrics modelName f n b' hcu hb'⟩

/-- Witness metric list for C5: `rev` is a sum metric of model `orders`,
`net` an expression metric referencing only `rev`. -/
def c5Metrics : List DbtMetric :=
  [{ unique_id := "metric.proj.rev", name := "rev", label := none, description := none,
     calculation_method := "sum", expression := some "amount", filters := [],
     metrics := [], refs := [["orders"]], meta := none },
   { unique_id := "metric.proj.net", name := "net", label := none, description := none,
     calculation_method := "expression", expression := some "rev - 1", filters := [],
     metrics := [["rev"]], refs := [["other"]], meta := none }]

/-- C5 witness: the characterization applied to `net` on model `orders`. -/
theorem modelCanUseMetric_characterization_witness :
    (true = true) ↔
      ((c5Metrics.get ⟨1, by decide⟩).refs.head?.bind List.head? = some "orders"
        ∨ ((c5Metrics.get ⟨1, by decide⟩).calculation_method = "expression"
            ∧ ∀ r ∈ (c5Metrics.get ⟨1, by decide⟩).metrics.map List.head?,
                ∃ n, r = some n ∧ CanUse c5Metrics "orders" n)) :=
  modelCanUseMetric_characterization c5Metrics "orders" "net"
    (c5Metrics.get ⟨1, by decide⟩) 3 true (by decide) (by decide)

/-- One expression-reference edge of a metric list: the metric found under
name `a` is an expression metric that lists `b` as a referenced metric. -/
def RefEdge (metrics : List DbtMetric) (a b : String) : Prop :=
  ∃ m, metrics.find? (fun x => x.name = a) = some m
    ∧ m.calculation_method = "expression"
    ∧ some b ∈ m.metrics.map List.head?

/-- Acyclicity of the expression-metric reference relation, as the existence
of a rank that strictly decreases along every edge (on a finite graph this is
exactly the absence of reference cycles). -/
def RefsAcyclic (metrics : List DbtMetric) : Prop :=
  ∃ rank : String → Nat, ∀ a b, RefEdge metrics a b → rank b < rank a

theorem modelCanUseMetric_isSome_of_rank (metrics : List DbtMetric) (modelName : String)
    (rank : String → Nat) (hr : ∀ a b, RefEdge metrics a b → rank b < rank a) :
    ∀ fuel name, rank name < fuel →
      (modelCanUseMetric fuel name modelName metrics).isSome = true := by
  intro fuel
  induction fuel with
  | zero => intro name h; exact absurd h (Nat.not_lt_zero _)
  | succ f ih =>
    intro name hlt
    cases hfind : metrics.find? (fun x => x.name = name) with
    | none => rw [modelCanUseMetric_succ_none f name modelName metrics hfind]; rfl
    | some metric =>
      rw [modelCanUseMetric_succ_eq f name modelName metrics metric hfind]
      by_cases href : metric.refs.head?.bind List.head? = some modelName
      · rw [if_pos href]; rfl
      · rw [if_neg href]
        by_cases hexpr : metric.calculation_method = "expression"
        · rw [if_pos hexpr]
          refine everyStep_foldl_isSome _ _ ?_
          intro n hn
          have hedge : RefEdge metrics name n := ⟨metric, hfind, hexpr, hn⟩
          refine ih n ?_
          have h1 := hr name n hedge
          omega
        · rw [if_neg hexpr]; rfl

/-- C9: when the expression-metric reference relation of a finite metric list
is acyclic, `modelCanUseMetric` terminates (the fuel embedding of the
unguarded recursion yields a result) for every metric name and model name. -/
theorem modelCanUseMetric_terminates_of_acyclic (metrics : List DbtMetric)
    (h : RefsAcyclic metrics) :
    ∀ metricName modelName, ∃ fuel,
      (modelCanUseMetric fuel metricName modelName metrics).isSome = true := by
  obtain ⟨rank, hr⟩ := h
  intro name modelName
  exact ⟨rank name + 1,
    modelCanUseMetric_isSome_of_rank metrics modelName rank hr (rank name + 1) name
      (Nat.lt_succ_self _)⟩

/-- Witness metric list for C9: an acyclic two-metric chain. -/
def c9Metrics : List DbtMetric :=
  [{ unique_id := "metric.proj.rev", name := "rev", label := none, description := none,
     calculation_method := "sum", expression := some "amount", filters := [],
     metrics := [], refs := [["orders"]], meta := none },
   { unique_id := "metric.proj.net", name := "net", label := none, description := none,
     calculation_method := "expression", expression := some "rev - 1", filters := [],
     metrics := [["rev"]], refs := [["other"]], meta := none }]

theorem c9Metrics_acyclic : RefsAcyclic c9Metrics := by
  refine ⟨fun n => if n = "net" then 1 else 0, ?_⟩
  rintro a b ⟨m, hfind, hexpr, hmem⟩
  by_cases ha1 : a = "rev"
  · subst ha1
    have hm : m = c9Metrics.get ⟨0, by decide⟩ := by
      simpa [c9Metrics, List.find?] using hfind.symm
    rw [hm] at hexpr
    exact absurd hexpr (by decide)
  · by_cases ha2 : a = "net"
    · subst ha2
      have hm : m = c9Metrics.get ⟨1, by decide⟩ := by
        simpa [c9Metrics, List.find?] using hfind.symm
      rw [hm] at hmem
      have hb : b = "rev" := by
        simpa [c9Metrics, eq_comm] using hmem
      subst hb
      simp
    · have h1 : ¬ ("rev" = a) := fun h => ha1 h.symm
      have h2 : ¬ ("net" = a) := fun h => ha2 h.symm
      have hnone : c9Metrics.find? (fun x => x.name = a) = none := by
        simp [c9Metrics, List.find?, h1, h2]
      rw [hnone] at hfind
      exact absurd hfind (by simp)

/-- C9 witness: termination on the concrete acyclic chain. -/
theorem modelCanUseMetric_terminates_witness :
    ∃ fuel, (modelCanUseMetric fuel "net" "orders" c9Metrics).isSome = true :=
  modelCanUseMetric_terminates_of_acyclic c9Metrics c9Metrics_acyclic "net" "orders"

/-! ## C10 and C8: `attachTypesToModels` -/

theorem except_mapM_ok_forall2 {α β ε : Type} (f : α → Except ε β) :
    ∀ (l : List α) (out : List β), l.mapM f = .ok out →
      List.Forall₂ (fun a b => f a = .ok b) l out := by
  intro l
  induction l with
  | nil =>
    intro out h
    simp only [List.mapM_nil, pure, Except.pure, Except.ok.injEq] at h
    subst h
    exact List.Forall₂.nil
  | cons a l ih =>
    intro out h
    rw [List.mapM_cons] at h
    cases hfa : f a with
    | error e => rw [hfa] at h; simp [bind, Except.bind] at h
    | ok b =>
      rw [hfa] at h
      cases hml : l.mapM f with
      | error e => rw [hml] at h; simp [bind, Except.bind] at h
      | ok bs =>
        rw [hml] at h
        simp only [bind, Except.bind, pure, Except.pure, Except.ok.injEq] at h
        subst h
        exact List.Forall₂.cons hfa (ih bs hml)

theorem setKey_append_of_not_mem {α : Type} (a : Rcd α) (k : String) (v : α)
    (h : k ∉ keysOf a) : setKey a k v = a ++ [(k, v)] := by
  induction a with
  | nil => rfl
  | cons p a ih =>
    simp only [keysOf, List.map_cons, List.mem_cons, not_or] at h
    simp only [setKey, if_neg (fun hp : p.1 = k => h.1 hp.symm), List.cons_append,
      List.cons.injEq, true_and]
    exact ih (by simpa [keysOf] using h.2)

theorem spread_eq_append {α : Type} (l : Rcd α) :
    ∀ a : Rcd α, (∀ k, k ∈ keysOf l → k ∉ keysOf a) → NodupKeys l →
      spread a l = a ++ l := by
  induction l with
  | nil => intro a _ _; simp [spread]
  | cons p l ih =>
    intro a hdis hnd
    simp only [NodupKeys, keysOf, List.map_cons, List.nodup_cons] at hnd
    rw [spread_cons, setKey_append_of_not_mem a p.1 p.2
      (hdis p.1 (by simp [keysOf]))]
    rw [ih (a ++ [(p.1, p.2)]) ?_ hnd.2]
    · simp
    · intro k hk
      simp only [keysOf, List.map_append, List.mem_append, not_or]
      refine ⟨hdis k ?_, ?_⟩
      · show k ∈ keysOf (p :: l)
        simp only [keysOf, List.map_cons]
        exact List.mem_cons_of_mem _ hk
      simp only [List.map_cons, List.map_nil, List.mem_singleton]
      intro he
      subst he
      exact hnd.1 hk

theorem spread_nil_of_nodup {α : Type} (l : Rcd α) (h : NodupKeys l) :
    spread [] l = l := by
  rw [spread_eq_append l [] (by simp [keysOf]) h]
  simp

theorem keysOf_eq_of_forall2_fst {α β : Type} (l : List (String × α))
    (l' : List (String × β))
    (h : List.Forall₂ (fun p q => q.1 = p.1) l l') : keysOf l' = keysOf l := by
  induction h with
  | nil => rfl
  | cons h1 _ ih =>
    simp only [keysOf, List.map_cons] at ih ⊢
    rw [h1, ih]


/-- The frame relation of the catalog type attacher: the output model equals
the input in every field except `columns`; the column map keeps its keys, and
each column equals its input in every field except `data_type`, replaced by
`getType`'s successful result. -/
def AttachFrame (warehouseCatalog : WarehouseCatalog) (thr cs : Bool)
    (model m' : DbtModelNode) : Prop :=
  m'.unique_id = model.unique_id ∧ m'.name = model.name
  ∧ m'.database = model.database ∧ m'.schema = model.schema
  ∧ m'.relation_name = model.relation_name ∧ m'.description = model.description
  ∧ m'.config_meta = model.config_meta ∧ m'.meta = model.meta
  ∧ m'.tags = model.tags ∧ m'.patch_path = model.patch_path
  ∧ m'.compiled = model.compiled
  ∧ keysOf m'.columns = keysOf model.columns
  ∧ List.Forall₂ (fun p q =>
      q.1 = p.1
      ∧ ∃ t, getType warehouseCatalog thr cs model p.1 = .ok t
          ∧ q.2 = { p.2 with data_type := t })
    model.columns m'.columns

theorem attachColumnTypes_frame (warehouseCatalog : WarehouseCatalog)
    (thr cs : Bool) (model m' : DbtModelNode)
    (hnd : NodupKeys model.columns)
    (h : attachColumnTypes warehouseCatalog thr cs model = .ok m') :
    AttachFrame warehouseCatalog thr cs model m' := by
  unfold attachColumnTypes at h
  cases hm : model.columns.mapM (fun p => do
      let t ← getType warehouseCatalog thr cs model p.1
      pure (p.1, { p.2 with data_type := t })) with
  | error e => rw [hm] at h; simp [bind, Except.bind] at h
  | ok cols =>
    rw [hm] at h
    simp only [bind, Except.bind, pure, Except.pure, Except.ok.injEq] at h
    have hf2 := except_mapM_ok_forall2 _ model.columns cols hm
    have hf2' : List.Forall₂ (fun p q =>
        q.1 = p.1
        ∧ ∃ t, getType warehouseCatalog thr cs model p.1 = .ok t
            ∧ q.2 = { p.2 with data_type := t }) model.columns cols := by
      refine hf2.imp ?_
      intro p q hpq
      cases hg : getType warehouseCatalog thr cs model p.1 with
      | error e => rw [hg] at hpq; simp [bind, Except.bind] at hpq
      | ok t =>
        rw [hg] at hpq
        simp only [bind, Except.bind, pure, Except.pure, Except.ok.injEq] at hpq
        subst hpq
        exact ⟨rfl, t, rfl, rfl⟩
    have hkeys : keysOf cols = keysOf model.columns :=
      keysOf_eq_of_forall2_fst model.columns cols (hf2'.imp (fun p q hpq => hpq.1))
    have hndcols : NodupKeys cols := by
      rw [NodupKeys, hkeys]
      exact hnd
    have hcols : spread [] cols = cols := spread_nil_of_nodup cols hndcols
    subst h
    refine ⟨rfl, rfl, rfl, rfl, rfl, rfl, rfl, rfl, rfl, rfl, rfl, ?_, ?_⟩
    · show keysOf (spread [] cols) = keysOf model.columns
      rw [hcols, hkeys]
    · show List.Forall₂ _ model.columns (spread [] cols)
      rw [hcols]
      exact hf2'

theorem forall2_attachFrame (warehouseCatalog : WarehouseCatalog) (thr cs : Bool) :
    ∀ (models out : List DbtModelNode),
      List.Forall₂ (fun model m' =>
        attachColumnTypes warehouseCatalog thr cs model = .ok m') models out →
      (∀ m ∈ models, NodupKeys m.columns) →
      List.Forall₂ (AttachFrame warehouseCatalog thr cs) models out := by
  intro models out h
  induction h with
  | nil => intro _; exact .nil
  | cons h1 _ ih =>
    intro hnd
    exact .cons
      (attachColumnTypes_frame warehouseCatalog thr cs _ _
        (hnd _ (List.mem_cons_self _ _)) h1)
      (ih (fun m hm => hnd m (List.mem_cons_of_mem _ hm)))

/-- C10: when `attachTypesToModels` succeeds on JS-well-formed column maps (a
JS object cannot repeat a key), the output has the same length and order as
the input and every output model is its input model with only each column's
`data_type` replaced by the catalog-resolved type (absent exactly when
unresolved and `throwOnMissingCatalogEntry` is false, per `getType`). -/
theorem attachTypesToModels_frame (models : List DbtModelNode)
    (warehouseCatalog : WarehouseCatalog) (thr cs : Bool) (out : List DbtModelNode)
    (hnd : ∀ m ∈ models, NodupKeys m.columns)
    (h : attachTypesToModels models warehouseCatalog thr cs = .ok out) :
    out.length = models.length
    ∧ List.Forall₂ (AttachFrame warehouseCatalog thr cs) models out := by
  unfold attachTypesToModels at h
  cases hforM : models.forM (fun m =>
      if (lookupTableColumns warehouseCatalog cs m.database m.schema m.name).isNone
          && thr then
        Except.error (LdError.missingCatalogEntryError
          ("Model \"" ++ m.name ++ "\" was expected in your target warehouse at \""
            ++ m.database ++ "." ++ m.schema ++ "." ++ m.name
            ++ "\". Does the table exist in your target data warehouse?"))
      else Except.ok ()) with
  | error e => rw [hforM] at h; simp [bind, Except.bind] at h
  | ok u =>
    rw [hforM] at h
    simp only [bind, Except.bind] at h
    have hf2 := except_mapM_ok_forall2 _ models out h
    have hmain := forall2_attachFrame warehouseCatalog thr cs models out hf2 hnd
    exact ⟨hmain.length_eq.symm, hmain⟩

/-- Witness model for C10: one column, no manifest type. -/
def c10Model : DbtModelNode :=
  { unique_id := "model.proj.orders"
    name := "orders"
    database := "db"
    schema := "public"
    relation_name := some "\"db\".\"public\".\"orders\""
    description := none
    columns := [("amount",
      { name := "amount", description := none,
        meta := { dimension := none, metrics := [] }, data_type := none })]
    config_meta := none
    meta := { label := none, joins := none }
    tags := some []
    patch_path := none
    compiled := true }

/-- Witness catalog for C10. -/
def c10Catalog : WarehouseCatalog :=
  [("db", [("public", [("orders", [("amount", "number")])])])]

/-- The concrete attach output for the C10 witness. -/
def c10Out : List DbtModelNode :=
  match attachTypesToModels [c10Model] c10Catalog true true with
  | .ok l => l
  | .error _ => []

/-- C10 witness: the frame theorem at a concrete model and catalog. -/
theorem attachTypesToModels_frame_witness :
    c10Out.length = [c10Model].length
    ∧ List.Forall₂ (AttachFrame c10Catalog true true) [c10Model] c10Out :=
  attachTypesToModels_frame [c10Model] c10Catalog true true c10Out
    (by
      intro m hm
      simp only [List.mem_singleton] at hm
      subst hm
      show (keysOf c10Model.columns).Nodup
      decide)
    rfl

theorem mem_dimensionTypeValues_ne_empty (t : String) (h : t ∈ dimensionTypeValues) :
    t ≠ "" := by
  fin_cases h <;> decide

/-- C8: a column of `attachTypesToModels`' output whose `data_type` was set to
a catalog `DimensionType` (and whose well-typed `meta.dimension.type` override,
if any, is itself a recognised type, as its declared TS type guarantees) never
makes `convertDimension` throw the unrecognised-type
`MissingCatalogEntryError`. -/
theorem attach_roundTrip_no_unrecognized_type (models : List DbtModelNode)
    (warehouseCatalog : WarehouseCatalog) (thr cs : Bool) (out : List DbtModelNode)
    (m' : DbtModelNode) (k : String) (c' : DbtModelColumn) (t : String)
    (tw : SupportedDbtAdapter) (tableLabel : String) (source : Option Source)
    (ti : Option TimeFrames)
    (hattach : attachTypesToModels models warehouseCatalog thr cs = .ok out)
    (hm : m' ∈ out) (hc : (k, c') ∈ m'.columns)
    (hdt : c'.data_type = some t)
    (ht : t ∈ dimensionTypeValues)
    (hov : ∀ s, c'.meta.dimension.bind (fun d => d.type) = some s →
        s = "" ∨ s ∈ dimensionTypeValues) :
    (convertDimension tw m' tableLabel c' source ti).isOk = true := by
  have htne := mem_dimensionTypeValues_ne_empty t ht
  have hres : resolvedTypeOf c' ∈ dimensionTypeValues := by
    unfold resolvedTypeOf
    cases hb : c'.meta.dimension.bind (fun d => d.type) with
    | none =>
      simp only [jsOr, hdt]
      rw [if_neg htne]
      exact ht
    | some s =>
      rcases hov s hb with hs | hs
      · subst hs
        simp only [jsOr, hdt, if_pos rfl]
        rw [if_neg htne]
        exact ht
      · simp only [jsOr]
        rw [if_neg (mem_dimensionTypeValues_ne_empty s hs)]
        exact hs
  have hcont : dimensionTypeValues.contains (resolvedTypeOf c') = true := by
    simpa [List.contains, List.elem_iff] using hres
  obtain ⟨d, hd⟩ := convertDimension_ok_of_contains tw m' tableLabel c' source ti hcont
  rw [hd]
  rfl

/-- Witness model for C8. -/
def c8Model : DbtModelNode :=
  { unique_id := "model.proj.orders"
    name := "orders"
    database := "db"
    schema := "public"
    relation_name := some "\"db\".\"public\".\"orders\""
    description := none
    columns := [("amount",
      { name := "amount", description := none,
        meta := { dimension := none, metrics := [] }, data_type := none })]
    config_meta := none
    meta := { label := none, joins := none }
    tags := some []
    patch_path := none
    compiled := true }

/-- Witness catalog for C8. -/
def c8Catalog : WarehouseCatalog :=
  [("db", [("public", [("orders", [("amount", "number")])])])]

/-- The concrete attach output for the C8 witness. -/
def c8Out : List DbtModelNode :=
  match attachTypesToModels [c8Model] c8Catalog true true with
  | .ok l => l
  | .error _ => []

/-- The attached model of the C8 witness. -/
def c8M : DbtModelNode :=
  match attachTypesToModels [c8Model] c8Catalog true true with
  | .ok (m :: _) => m
  | _ => c8Model

/-- The attached `amount` column of the C8 witness. -/
def c8Col : DbtModelColumn :=
  { name := "amount", description := none,
    meta := { dimension := none, metrics := [] }, data_type := some "number" }

/-- C8 witness: the round-trip theorem at a concrete attached column. -/
theorem attach_roundTrip_no_unrecognized_type_witness :
    (convertDimension .postgres c8M "Orders" c8Col none none).isOk = true :=
  attach_roundTrip_no_unrecognized_type [c8Model] c8Catalog true true c8Out
    c8M "amount" c8Col "number" .postgres "Orders" none none rfl (by decide)
    (by decide) rfl (by decide) (by simp [c8Col])

/-! ## C7: time-interval expansion in `convertTable` -/

theorem toStr_length_pos (t : TimeFrames) : 0 < t.toStr.length := by
  cases t <;> decide

theorem toStr_injective (a b : TimeFrames) (h : a.toStr = b.toStr) : a = b := by
  revert h
  revert a b
  decide

theorem interval_key_ne_name (s : String) (t : TimeFrames) :
    s ++ "_" ++ t.toStr ≠ s := by
  intro h
  have hlen := congrArg String.length h
  simp only [String.length_append] at hlen
  have := toStr_length_pos t
  omega

theorem string_append_left_cancel (s x y : String) (h : s ++ x = s ++ y) : x = y := by
  have hd := congrArg String.data h
  simp only [String.data_append] at hd
  have h2 := List.append_cancel_left hd
  cases x with
  | mk dx =>
    cases y with
    | mk dy =>
      simp only at h2
      rw [h2]

theorem interval_key_injective (s : String) (a b : TimeFrames)
    (h : s ++ "_" ++ a.toStr = s ++ "_" ++ b.toStr) : a = b :=
  toStr_injective a b (string_append_left_cancel (s ++ "_") _ _ h)

theorem forall2_mem_left {α β : Type} {R : α → β → Prop} {l : List α} {l' : List β}
    (h : List.Forall₂ R l l') : ∀ a ∈ l, ∃ b ∈ l', R a b := by
  induction h with
  | nil => intro a ha; exact absurd ha (List.not_mem_nil a)
  | cons h1 _ ih =>
    intro a ha
    rcases List.mem_cons.1 ha with rfl | ha'
    · exact ⟨_, List.mem_cons_self _ _, h1⟩
    · obtain ⟨b, hb, hr⟩ := ih a ha'
      exact ⟨b, List.mem_cons_of_mem _ hb, hr⟩

theorem forall2_mem_right {α β : Type} {R : α → β → Prop} {l : List α} {l' : List β}
    (h : List.Forall₂ R l l') : ∀ b ∈ l', ∃ a ∈ l, R a b := by
  induction h with
  | nil => intro b hb; exact absurd hb (List.not_mem_nil b)
  | cons h1 _ ih =>
    intro b hb
    rcases List.mem_cons.1 hb with rfl | hb'
    · exact ⟨_, List.mem_cons_self _ _, h1⟩
    · obtain ⟨a, ha, hr⟩ := ih b hb'
      exact ⟨a, List.mem_cons_of_mem _ ha, hr⟩

theorem columnExtraDims_ok_forall2 (adapterType : SupportedDbtAdapter)
    (model : DbtModelNode) (tableLabel : String) (column : DbtModelColumn)
    (dimType : String) (intervals : List TimeFrames)
    (extra : List (String × Dimension))
    (hen : timeIntervalsEnabled column dimType = true)
    (hint : expandedIntervals column dimType = .ok intervals)
    (hex : columnExtraDims adapterType model tableLabel column dimType = .ok extra) :
    List.Forall₂ (fun iv p => p.1 = column.name ++ "_" ++ TimeFrames.toStr iv
        ∧ convertDimension adapterType model tableLabel column none (some iv) = .ok p.2)
      intervals extra := by
  unfold columnExtraDims at hex
  rw [hen] at hex
  have hex1 : (do
      let ivs ← expandedIntervals column dimType
      ivs.mapM (fun interval => do
        let dv ← convertDimension adapterType model tableLabel column none (some interval)
        pure (column.name ++ "_" ++ TimeFrames.toStr interval, dv))) = Except.ok extra := hex
  rw [hint] at hex1
  have hex2 : intervals.mapM (fun interval => do
      let dv ← convertDimension adapterType model tableLabel column none (some interval)
      pure (column.name ++ "_" ++ TimeFrames.toStr interval, dv)) = Except.ok extra := hex1
  refine (except_mapM_ok_forall2 _ intervals extra hex2).imp ?_
  intro iv p hp
  cases hdv : convertDimension adapterType model tableLabel column none (some iv) with
  | error e => rw [hdv] at hp; exact absurd hp (by simp [bind, Except.bind])
  | ok dv =>
    rw [hdv] at hp
    have hp2 : (Except.ok (column.name ++ "_" ++ TimeFrames.toStr iv, dv)
        : Except LdError (String × Dimension)) = Except.ok p := hp
    simp only [Except.ok.injEq] at hp2
    subst hp2
    exact ⟨rfl, rfl⟩

theorem columnContrib_ok_shape
    (convMetric : ConvertMetricArgs → Except LdError Metric)
    (adapterType : SupportedDbtAdapter) (model : DbtModelNode) (tableLabel : String)
    (column : DbtModelColumn) (d : Dimension) (intervals : List TimeFrames)
    (cd : List (String × Dimension)) (cm : List (String × Metric))
    (hbase : convertDimension adapterType model tableLabel column none none = .ok d)
    (hen : timeIntervalsEnabled column d.type = true)
    (hint : expandedIntervals column d.type = .ok intervals)
    (hcc : columnContrib convMetric adapterType model tableLabel column = .ok (cd, cm)) :
    ∃ extra, cd = (column.name, d) :: extra
      ∧ List.Forall₂ (fun iv p => p.1 = column.name ++ "_" ++ TimeFrames.toStr iv
          ∧ convertDimension adapterType model tableLabel column none (some iv) = .ok p.2)
        intervals extra := by
  unfold columnContrib at hcc
  rw [hbase] at hcc
  have hcc1 : (do
      let extra ← columnExtraDims adapterType model tableLabel column d.type
      let columnMetrics ← columnEmbeddedMetrics convMetric model tableLabel d column
      pure ((column.name, d) :: extra, columnMetrics)) = Except.ok (cd, cm) := hcc
  cases hex : columnExtraDims adapterType model tableLabel column d.type with
  | error e => rw [hex] at hcc1; exact absurd hcc1 (by simp [bind, Except.bind])
  | ok extra =>
    rw [hex] at hcc1
    have hcc2 : (do
        let columnMetrics ← columnEmbeddedMetrics convMetric model tableLabel d column
        pure ((column.name, d) :: extra, columnMetrics)) = Except.ok (cd, cm) := hcc1
    cases hcm2 : columnEmbeddedMetrics convMetric model tableLabel d column with
    | error e => rw [hcm2] at hcc2; exact absurd hcc2 (by simp [bind, Except.bind])
    | ok cms =>
      rw [hcm2] at hcc2
      have hcc3 : (Except.ok ((column.name, d) :: extra, cms)
          : Except LdError (List (String × Dimension) × List (String × Metric)))
          = Except.ok (cd, cm) := hcc2
      simp only [Except.ok.injEq, Prod.mk.injEq] at hcc3
      exact ⟨extra, hcc3.1.symm,
        columnExtraDims_ok_forall2 adapterType model tableLabel column d.type intervals
          extra hen hint hex⟩

theorem convertColumns_post_preserves
    (convMetric : ConvertMetricArgs → Except LdError Metric)
    (adapterType : SupportedDbtAdapter) (model : DbtModelNode) (tableLabel : String)
    (key : String) :
    ∀ (post : List DbtModelColumn) (acc fin : Rcd Dimension × Rcd Metric),
      post.foldlM
          (fun acc column => do
            let contrib ← columnContrib convMetric adapterType model tableLabel column
            pure (spread acc.1 contrib.1, spread acc.2 contrib.2))
          acc = .ok fin →
      (∀ c' ∈ post, ∀ cd' cm',
        columnContrib convMetric adapterType model tableLabel c' = .ok (cd', cm') →
        key ∉ keysOf cd') →
      getKey fin.1 key = getKey acc.1 key := by
  intro post
  induction post with
  | nil =>
    intro acc fin h _
    simp only [List.foldlM_nil, pure, Except.pure, Except.ok.injEq] at h
    subst h
    rfl
  | cons c post ih =>
    intro acc fin h hnc
    rw [List.foldlM_cons] at h
    cases hcc : columnContrib convMetric adapterType model tableLabel c with
    | error e => rw [hcc] at h; simp [bind, Except.bind] at h
    | ok contrib =>
      rw [hcc] at h
      simp only [bind, Except.bind, pure, Except.pure] at h
      rw [ih _ fin h (fun c' hc' => hnc c' (List.mem_cons_of_mem _ hc'))]
      exact getKey_spread_not_mem _ _ _
        (hnc c (List.mem_cons_self _ _) contrib.1 contrib.2 (by rw [hcc]))

theorem convertTable_ok_components
    (convMetric : ConvertMetricArgs → Except LdError Metric)
    (adapterType : SupportedDbtAdapter) (model : DbtModelNode)
    (dbtMetrics : List DbtMetric) (dims : Rcd Dimension) (mets : Rcd Metric)
    (cdm : Rcd Metric) (table : UnlineagedTable)
    (hcompiled : model.compiled = true)
    (hcols : convertColumns convMetric adapterType model (tableLabelOf model)
      = .ok (dims, mets))
    (hdbt : convertDbtMetrics dbtMetrics model.name (tableLabelOf model) = .ok cdm)
    (hok : convertTable convMetric adapterType model dbtMetrics = .ok table) :
    table.dimensions = dims ∧ table.metrics = spread cdm mets := by
  by_cases hlen : (duplicatedNamesOf dims (spread cdm mets)).length > 0
  · simp [convertTable, hcompiled, hcols, hdbt, bind, Except.bind, hlen] at hok
  · cases hr : model.relation_name with
    | none => simp [convertTable, hcompiled, hcols, hdbt, bind, Except.bind, hlen, hr] at hok
    | some rel =>
      by_cases hrel : rel = ""
      · simp [convertTable, hcompiled, hcols, hdbt, bind, Except.bind, hlen, hr, hrel] at hok
      · simp [convertTable, hcompiled, hcols, hdbt, bind, Except.bind, hlen, hr, hrel] at hok
        rw [← hok]
        exact ⟨rfl, rfl⟩

theorem convertColumns_split
    (convMetric : ConvertMetricArgs → Except LdError Metric)
    (adapterType : SupportedDbtAdapter) (model : DbtModelNode) (tableLabel : String)
    (pre post : List DbtModelColumn) (column : DbtModelColumn)
    (dims : Rcd Dimension) (mets : Rcd Metric)
    (h : (pre ++ column :: post).foldlM
        (fun acc column => do
          let contrib ← columnContrib convMetric adapterType model tableLabel column
          pure (spread acc.1 contrib.1, spread acc.2 contrib.2))
        ([], []) = .ok (dims, mets)) :
    ∃ (accPre : Rcd Dimension × Rcd Metric) (cd : List (String × Dimension))
      (cm : List (String × Metric)),
      columnContrib convMetric adapterType model tableLabel column = .ok (cd, cm)
      ∧ post.foldlM
          (fun acc column => do
            let contrib ← columnContrib convMetric adapterType model tableLabel column
            pure (spread acc.1 contrib.1, spread acc.2 contrib.2))
          (spread accPre.1 cd, spread accPre.2 cm) = .ok (dims, mets) := by
  rw [List.foldlM_append] at h
  cases hpre : pre.foldlM
      (fun acc column => do
        let contrib ← columnContrib convMetric adapterType model tableLabel column
        pure (spread acc.1 contrib.1, spread acc.2 contrib.2))
      ([], []) with
  | error e => rw [hpre] at h; exact absurd h (by simp [bind, Except.bind])
  | ok accPre =>
    rw [hpre] at h
    have h2 : (column :: post).foldlM
        (fun acc column => do
          let contrib ← columnContrib convMetric adapterType model tableLabel column
          pure (spread acc.1 contrib.1, spread acc.2 contrib.2))
        accPre = .ok (dims, mets) := h
    rw [List.foldlM_cons] at h2
    cases hcc : columnContrib convMetric adapterType model tableLabel column with
    | error e =>
      rw [hcc] at h2
      exact absurd h2 (by simp [bind, Except.bind])
    | ok contrib =>
      rw [hcc] at h2
      have h4 : post.foldlM
          (fun acc column => do
            let contrib ← columnContrib convMetric adapterType model tableLabel column
            pure (spread acc.1 contrib.1, spread acc.2 contrib.2))
          (spread accPre.1 contrib.1, spread accPre.2 contrib.2) = .ok (dims, mets) := h2
      exact ⟨accPre, contrib.1, contrib.2, rfl, h4⟩

/-- C7 (amended: the guarantee additionally requires that no later column of
the model contributes the same dimension-map key — a column literally named
`<column>_<interval>`, or a later expansion producing that key, overwrites the
expanded dimension in the column fold; the interval identifiers are the
spec-modelled lowercase ones, under which the expanded dimension's `name`
coincides with its map key): for a column whose resolved base type is DATE or
TIMESTAMP and whose `time_intervals` override is not `"OFF"`, the dimension
map of `convertTable` holds the base dimension under the column name and, for
every applicable interval (validated explicit list, else the type's default
set), an expanded dimension keyed `<column>_<interval>` whose `name` equals
that key and whose `group` is the base column name. -/
theorem convertTable_time_interval_expansion
    (convMetric : ConvertMetricArgs → Except LdError Metric)
    (adapterType : SupportedDbtAdapter) (model : DbtModelNode)
    (dbtMetrics : List DbtMetric) (cdm : Rcd Metric)
    (pre post : List DbtModelColumn) (column : DbtModelColumn)
    (dims : Rcd Dimension) (mets : Rcd Metric)
    (d : Dimension) (intervals : List TimeFrames) (iv : TimeFrames)
    (hcompiled : model.compiled = true)
    (hsplit : model.columns.map Prod.snd = pre ++ column :: post)
    (hcols : convertColumns convMetric adapterType model (tableLabelOf model)
      = .ok (dims, mets))
    (hdbt : convertDbtMetrics dbtMetrics model.name (tableLabelOf model) = .ok cdm)
    (hbase : convertDimension adapterType model (tableLabelOf model) column none none
      = .ok d)
    (hty : d.type = "date" ∨ d.type = "timestamp")
    (hnotoff : column.meta.dimension.bind (fun dm => dm.time_intervals)
      ≠ some TimeIntervalsSetting.off)
    (hint : expandedIntervals column d.type = .ok intervals)
    (hiv : iv ∈ intervals)
    (hnoclobber : ∀ c' ∈ post, ∀ cd' cm',
        columnContrib convMetric adapterType model (tableLabelOf model) c'
          = .ok (cd', cm') →
        column.name ∉ keysOf cd'
          ∧ (column.name ++ "_" ++ TimeFrames.toStr iv) ∉ keysOf cd') :
    (getKey dims column.name = some d)
    ∧ (∃ dIv, getKey dims (column.name ++ "_" ++ TimeFrames.toStr iv) = some dIv
        ∧ dIv.name = column.name ++ "_" ++ TimeFrames.toStr iv
        ∧ dIv.group = some column.name
        ∧ dIv.timeInterval = some iv)
    ∧ (∀ table, convertTable convMetric adapterType model dbtMetrics = .ok table →
        table.dimensions = dims) := by
  have hen : timeIntervalsEnabled column d.type = true := by
    have hmatch : (match column.meta.dimension.bind (fun dm => dm.time_intervals) with
        | some TimeIntervalsSetting.off => false
        | _ => true) = true := by
      cases hti : column.meta.dimension.bind (fun dm => dm.time_intervals) with
      | none => rfl
      | some v =>
        cases v with
        | off => exact absurd hti hnotoff
        | explicitList l => rfl
    unfold timeIntervalsEnabled
    rw [hmatch]
    rcases hty with h | h <;> simp [h]
  have hfold := hcols
  unfold convertColumns at hfold
  rw [hsplit] at hfold
  obtain ⟨accPre, cd, cm, hcc, hpost⟩ :=
    convertColumns_split convMetric adapterType model (tableLabelOf model)
      pre post column dims mets hfold
  obtain ⟨extra, hcd, hf2⟩ :=
    columnContrib_ok_shape convMetric adapterType model (tableLabelOf model)
      column d intervals cd cm hbase hen hint hcc
  obtain ⟨p, hpmem, hp1, hp2⟩ :
      ∃ p ∈ extra, p.1 = column.name ++ "_" ++ TimeFrames.toStr iv
        ∧ convertDimension adapterType model (tableLabelOf model) column none (some iv)
          = .ok p.2 := by
    obtain ⟨p, hpmem, hp⟩ := forall2_mem_left hf2 iv hiv
    exact ⟨p, hpmem, hp.1, hp.2⟩
  have hkeyne : column.name ++ "_" ++ TimeFrames.toStr iv ≠ column.name :=
    interval_key_ne_name column.name iv
  -- the base dimension survives the fold
  have hgetName : getKey dims column.name = some d := by
    rw [convertColumns_post_preserves convMetric adapterType model (tableLabelOf model)
      column.name post _ _ hpost
      (fun c' hc' cd' cm' hcc' => (hnoclobber c' hc' cd' cm' hcc').1)]
    refine getKey_spread_uniform accPre.1 cd column.name d ?_ ?_
    · rw [hcd]
      simp [keysOf]
    · intro q hq hq1
      rw [hcd] at hq
      rcases List.mem_cons.1 hq with rfl | hq'
      · rfl
      · obtain ⟨iv', _, hq2⟩ := forall2_mem_right hf2 q hq'
        exact absurd (hq2.1 ▸ hq1) (interval_key_ne_name column.name iv')
  -- the expanded dimension survives the fold
  have hgetIv : getKey dims (column.name ++ "_" ++ TimeFrames.toStr iv) = some p.2 := by
    rw [convertColumns_post_preserves convMetric adapterType model (tableLabelOf model)
      (column.name ++ "_" ++ TimeFrames.toStr iv) post _ _ hpost
      (fun c' hc' cd' cm' hcc' => (hnoclobber c' hc' cd' cm' hcc').2)]
    refine getKey_spread_uniform accPre.1 cd _ p.2 ?_ ?_
    · rw [hcd]
      simp only [keysOf, List.map_cons, List.mem_cons]
      exact Or.inr (hp1 ▸ List.mem_map_of_mem Prod.fst hpmem)
    · intro q hq hq1
      rw [hcd] at hq
      rcases List.mem_cons.1 hq with rfl | hq'
      · exact absurd hq1 (fun he => hkeyne he.symm)
      · obtain ⟨iv', _, hq2⟩ := forall2_mem_right hf2 q hq'
        have hiv' : iv' = iv :=
          interval_key_injective column.name iv' iv (hq2.1 ▸ hq1)
        subst hiv'
        have := hq2.2
        rw [hp2] at this
        exact (Except.ok.injEq _ _ ▸ this.symm)
  obtain ⟨hname, hgroup, hti⟩ :=
    convertDimension_interval_fields adapterType model (tableLabelOf model) column
      none iv p.2 hp2
  refine ⟨hgetName, ⟨p.2, hgetIv, ?_, hgroup, hti⟩, ?_⟩
  · rw [hname, lowerString_toStr]
  · intro table hok
    exact (convertTable_ok_components convMetric adapterType model dbtMetrics dims mets
      cdm table hcompiled hcols hdbt hok).1

/-- A `convertMetric` stand-in for the C7 models (they embed no metrics). -/
def c7ConvMetric : ConvertMetricArgs → Except LdError Metric := fun _ =>
  .error (.parseError "unused")

/-- The `meta.dimension` block of the C7 columns: an explicit DATE override,
no interval override. -/
def c7DimMeta : DbtColumnDimensionMeta :=
  { type := some "date", name := none, sql := none, label := none,
    description := none, hidden := none, round := none, compact := none,
    format := none, group_label := none, time_intervals := none, urls := none }

/-- C7 counterexample model: a DATE column `created` followed by a plain
column literally named `created_day`. -/
def c7CexModel : DbtModelNode :=
  { unique_id := "model.proj.orders"
    name := "orders"
    database := "db"
    schema := "public"
    relation_name := some "\"db\".\"public\".\"orders\""
    description := none
    columns := [
      ("created",
        { name := "created", description := none,
          meta := { dimension := some c7DimMeta, metrics := [] },
          data_type := none }),
      ("created_day",
        { name := "created_day", description := none,
          meta := { dimension := none, metrics := [] }, data_type := none })]
    config_meta := none
    meta := { label := none, joins := none }
    tags := some []
    patch_path := none
    compiled := true }

/-- C7 counterexample: the later column named `created_day` overwrites the
`day` expansion of `created`, so the map entry at key `created_day` is a plain
base dimension with no `group` and no `timeInterval` — not the expanded
dimension (with `group = "created"`) the claim promises for every applicable
interval of `created`. -/
theorem convertTable_expansion_clobber_cex :
    (convertTable c7ConvMetric .postgres c7CexModel []).map
        (fun t => (getKey t.dimensions "created_day").map
          (fun dv => (dv.name, dv.group, dv.timeInterval)))
      = .ok (some ("created_day", none, none)) := by
  decide

/-- C7 witness column: a single DATE column with default intervals. -/
def c7WitColumn : DbtModelColumn :=
  { name := "created", description := none,
    meta := { dimension := some c7DimMeta, metrics := [] },
    data_type := none }

/-- C7 witness model: only the `created` column. -/
def c7WitModel : DbtModelNode :=
  { unique_id := "model.proj.orders"
    name := "orders"
    database := "db"
    schema := "public"
    relation_name := some "\"db\".\"public\".\"orders\""
    description := none
    columns := [("created", c7WitColumn)]
    config_meta := none
    meta := { label := none, joins := none }
    tags := some []
    patch_path := none
    compiled := true }

/-- The concrete column-phase output of the C7 witness model. -/
def c7WitDM : Rcd Dimension × Rcd Metric :=
  match convertColumns c7ConvMetric .postgres c7WitModel (tableLabelOf c7WitModel) with
  | .ok dm => dm
  | .error _ => ([], [])

/-- The base dimension of the C7 witness column. -/
def c7BaseDim : Dimension :=
  { fieldType := .dimension, name := "created", label := "created",
    sql := "$\x7bTABLE\x7d.created", table := "orders", tableLabel := "orders",
    type := "date", description := none, source := none, group := none,
    timeInterval := none, hidden := false, format := none, round := none,
    compact := none, groupLabel := none, urls := none }

/-- C7 witness: the expansion theorem at the concrete DATE column and the
`day` interval. -/
theorem convertTable_time_interval_expansion_witness :
    (getKey c7WitDM.1 "created" = some c7BaseDim)
    ∧ (∃ dIv, getKey c7WitDM.1 ("created" ++ "_" ++ TimeFrames.toStr .day) = some dIv
        ∧ dIv.name = "created" ++ "_" ++ TimeFrames.toStr .day
        ∧ dIv.group = some "created"
        ∧ dIv.timeInterval = some TimeFrames.day)
    ∧ (∀ table, convertTable c7ConvMetric .postgres c7WitModel [] = .ok table →
        table.dimensions = c7WitDM.1) :=
  convertTable_time_interval_expansion c7ConvMetric .postgres c7WitModel [] []
    [] [] c7WitColumn c7WitDM.1 c7WitDM.2 c7BaseDim
    (getDefaultTimeFrames "date") .day rfl rfl rfl rfl (by decide)
    (Or.inl (by decide)) (by decide) rfl (by decide)
    (fun c' hc' => absurd hc' (List.not_mem_nil c'))

/-! ## C1 and C2: `convertExplores` -/

/-- The table produced by one model's first phase, when it succeeded. -/
def okOf (r : Except LdError Table) : Option Table :=
  match r with
  | .ok t => some t
  | .error _ => none

/-- The `ExploreError` produced by one model's first phase, when it failed. -/
def errOf (model : DbtModelNode) (r : Except LdError Table) : Option ExploreErrorRec :=
  match r with
  | .error e => some (mkPhase1Error model e)
  | .ok _ => none

/-- One model's first-phase outcome inside a `convertExplores` run over a given
model list (the lineage pre-pass is computed from the whole list). -/
def attemptFor (ext : Externals) (fuel : Nat) (adapterType : SupportedDbtAdapter)
    (metrics : List DbtMetric) (loadSources : Bool) (models : List DbtModelNode)
    (model : DbtModelNode) : Option (Except LdError Table) :=
  attemptModel ext fuel adapterType metrics loadSources
    (translateDbtModelsToTableLineage ext models) model

/-- The tables `convertExplores` accumulates in its first phase. -/
def phase1TablesOf (ext : Externals) (fuel : Nat) (adapterType : SupportedDbtAdapter)
    (metrics : List DbtMetric) (loadSources : Bool) (models : List DbtModelNode) :
    List Table :=
  models.filterMap
    (fun m => (attemptFor ext fuel adapterType metrics loadSources models m).bind okOf)

theorem phase1_isSome (ext : Externals) (fuel : Nat) (adapterType : SupportedDbtAdapter)
    (metrics : List DbtMetric) (loadSources : Bool) (tableLineage : Rcd LineageGraph) :
    ∀ (models : List DbtModelNode) (init te : List Table × List ExploreErrorRec),
      models.foldlM (phase1Step ext fuel adapterType metrics loadSources tableLineage)
        init = some te →
      ∀ m ∈ models,
        (attemptModel ext fuel adapterType metrics loadSources tableLineage m).isSome
          = true := by
  intro models
  induction models with
  | nil => intro init te _ m hm; exact absurd hm (List.not_mem_nil m)
  | cons m0 ms ih =>
    intro init te h m hm
    rw [List.foldlM_cons] at h
    cases ha : attemptModel ext fuel adapterType metrics loadSources tableLineage m0 with
    | none =>
      rw [show phase1Step ext fuel adapterType metrics loadSources tableLineage init m0
        = (attemptModel ext fuel adapterType metrics loadSources tableLineage m0).map
          (fun r => match r with
            | .ok t => (init.1 ++ [t], init.2)
            | .error e => (init.1, init.2 ++ [mkPhase1Error m0 e])) from rfl, ha] at h
      exact absurd h (by simp [bind, Option.bind])
    | some r =>
      rcases List.mem_cons.1 hm with rfl | hm'
      · rw [ha]; rfl
      · rw [show phase1Step ext fuel adapterType metrics loadSources tableLineage init m0
          = (attemptModel ext fuel adapterType metrics loadSources tableLineage m0).map
            (fun r => match r with
              | .ok t => (init.1 ++ [t], init.2)
              | .error e => (init.1, init.2 ++ [mkPhase1Error m0 e])) from rfl, ha] at h
        exact ih _ te h m hm'

theorem phase1_fold_eq (ext : Externals) (fuel : Nat) (adapterType : SupportedDbtAdapter)
    (metrics : List DbtMetric) (loadSources : Bool) (tableLineage : Rcd LineageGraph) :
    ∀ (models : List DbtModelNode) (init : List Table × List ExploreErrorRec),
      (∀ m ∈ models,
        (attemptModel ext fuel adapterType metrics loadSources tableLineage m).isSome
          = true) →
      models.foldlM (phase1Step ext fuel adapterType metrics loadSources tableLineage)
          init
        = some (init.1 ++ models.filterMap (fun m =>
              (attemptModel ext fuel adapterType metrics loadSources tableLineage m).bind
                okOf),
            init.2 ++ models.filterMap (fun m =>
              (attemptModel ext fuel adapterType metrics loadSources tableLineage m).bind
                (errOf m))) := by
  intro models
  induction models with
  | nil => intro init _; simp [pure]
  | cons m0 ms ih =>
    intro init hall
    rw [List.foldlM_cons]
    obtain ⟨r, hr⟩ := Option.isSome_iff_exists.1 (hall m0 (List.mem_cons_self _ _))
    rw [show phase1Step ext fuel adapterType metrics loadSources tableLineage init m0
      = (attemptModel ext fuel adapterType metrics loadSources tableLineage m0).map
        (fun r => match r with
          | .ok t => (init.1 ++ [t], init.2)
          | .error e => (init.1, init.2 ++ [mkPhase1Error m0 e])) from rfl, hr]
    cases r with
    | ok t =>
      show ms.foldlM (phase1Step ext fuel adapterType metrics loadSources tableLineage)
        (init.1 ++ [t], init.2) = _
      rw [ih (init.1 ++ [t], init.2)
        (fun m hm => hall m (List.mem_cons_of_mem _ hm))]
      simp only [List.filterMap_cons, hr, Option.some_bind, okOf, errOf]
      simp [List.append_assoc]
    | error e =>
      show ms.foldlM (phase1Step ext fuel adapterType metrics loadSources tableLineage)
        (init.1, init.2 ++ [mkPhase1Error m0 e]) = _
      rw [ih (init.1, init.2 ++ [mkPhase1Error m0 e])
        (fun m hm => hall m (List.mem_cons_of_mem _ hm))]
      simp only [List.filterMap_cons, hr, Option.some_bind, okOf, errOf]
      simp [List.append_assoc]

theorem phase1_char (ext : Externals) (fuel : Nat) (adapterType : SupportedDbtAdapter)
    (metrics : List DbtMetric) (loadSources : Bool) (tableLineage : Rcd LineageGraph)
    (models : List DbtModelNode) (te : List Table × List ExploreErrorRec)
    (h : phase1 ext fuel adapterType metrics loadSources tableLineage models = some te) :
    te.1 = models.filterMap (fun m =>
        (attemptModel ext fuel adapterType metrics loadSources tableLineage m).bind okOf)
    ∧ te.2 = models.filterMap (fun m =>
        (attemptModel ext fuel adapterType metrics loadSources tableLineage m).bind
          (errOf m)) := by
  have hall := phase1_isSome ext fuel adapterType metrics loadSources tableLineage
    models ([], []) te h
  have heq := phase1_fold_eq ext fuel adapterType metrics loadSources tableLineage
    models ([], []) hall
  unfold phase1 at h
  rw [heq] at h
  simp only [Option.some.injEq] at h
  rw [← h]
  exact ⟨by simp, by simp⟩

theorem convertExplores_char (ext : Externals) (fuel : Nat)
    (models : List DbtModelNode) (loadSources : Bool)
    (adapterType : SupportedDbtAdapter) (metrics : List DbtMetric)
    (out : List ExploreOrError)
    (h : convertExplores ext fuel models loadSources adapterType metrics = some out) :
    (∀ m ∈ models,
      (attemptFor ext fuel adapterType metrics loadSources models m).isSome = true)
    ∧ out = (models.filter (fun m =>
          (getKey (tableLookupOf
              (phase1TablesOf ext fuel adapterType metrics loadSources models))
            m.name).isSome)).map
          (phase2 ext adapterType
            (tableLookupOf (phase1TablesOf ext fuel adapterType metrics loadSources models)))
        ++ (models.filterMap (fun m =>
            (attemptFor ext fuel adapterType metrics loadSources models m).bind
              (errOf m))).map ExploreOrError.exploreError := by
  simp only [convertExplores] at h
  cases hp : phase1 ext fuel adapterType metrics loadSources
      (translateDbtModelsToTableLineage ext models) models with
  | none => rw [hp] at h; exact absurd h (by simp [bind, Option.bind])
  | some te =>
    rw [hp] at h
    obtain ⟨h1, h2⟩ := phase1_char ext fuel adapterType metrics loadSources
      (translateDbtModelsToTableLineage ext models) models te hp
    have hall := phase1_isSome ext fuel adapterType metrics loadSources
      (translateDbtModelsToTableLineage ext models) models ([], []) te hp
    have hout : some (
        (models.filter (fun m => (getKey (tableLookupOf te.1) m.name).isSome)).map
          (phase2 ext adapterType (tableLookupOf te.1))
        ++ te.2.map ExploreOrError.exploreError) = some out := h
    simp only [Option.some.injEq] at hout
    refine ⟨fun m hm => hall m hm, ?_⟩
    rw [← hout, h1, h2]
    rfl

theorem convertTable_ok_name (convMetric : ConvertMetricArgs → Except LdError Metric)
    (adapterType : SupportedDbtAdapter) (model : DbtModelNode)
    (dbtMetrics : List DbtMetric) (u : UnlineagedTable)
    (h : convertTable convMetric adapterType model dbtMetrics = .ok u) :
    u.name = model.name := by
  cases hcomp : model.compiled with
  | false => simp [convertTable, hcomp] at h
  | true =>
    cases hcv : convertColumns convMetric adapterType model (tableLabelOf model) with
    | error e => simp [convertTable, hcomp, hcv, bind, Except.bind] at h
    | ok dm =>
      cases hdt : convertDbtMetrics dbtMetrics model.name (tableLabelOf model) with
      | error e => simp [convertTable, hcomp, hcv, hdt, bind, Except.bind] at h
      | ok cdm =>
        by_cases hlen : (duplicatedNamesOf dm.1 (spread cdm dm.2)).length > 0
        · simp [convertTable, hcomp, hcv, hdt, hlen, bind, Except.bind] at h
        · cases hr : model.relation_name with
          | none => simp [convertTable, hcomp, hcv, hdt, hlen, hr, bind, Except.bind] at h
          | some rel =>
            by_cases hrel : rel = ""
            · simp [convertTable, hcomp, hcv, hdt, hlen, hr, hrel, bind, Except.bind] at h
            · simp [convertTable, hcomp, hcv, hdt, hlen, hr, hrel, bind, Except.bind] at h
              rw [← h]

theorem attemptModel_ok_name (ext : Externals) (fuel : Nat)
    (adapterType : SupportedDbtAdapter) (metrics : List DbtMetric) (loadSources : Bool)
    (tableLineage : Rcd LineageGraph) (model : DbtModelNode) (t : Table)
    (h : attemptModel ext fuel adapterType metrics loadSources tableLineage model
      = some (.ok t)) :
    t.name = model.name := by
  unfold attemptModel at h
  cases hm : metricsForModel fuel metrics model.name with
  | none => rw [hm] at h; exact absurd h (by simp [bind, Option.bind])
  | some tm =>
    rw [hm] at h
    have h2 : attemptTable ext adapterType loadSources tableLineage tm model
        = .ok t := by
      have h3 : some (attemptTable ext adapterType loadSources tableLineage tm model)
          = some (Except.ok t) := h
      simpa using h3
    unfold attemptTable at h2
    cases hct : convertTable ext.convertMetric adapterType model tm with
    | error e => rw [hct] at h2; exact absurd h2 (by simp [bind, Except.bind])
    | ok u =>
      rw [hct] at h2
      cases hls : loadSources && model.patch_path.isSome with
      | true =>
        have h4 : (Except.error (LdError.genericError (some "Not Implemented"))
            : Except LdError Table) = .ok t := by
          simpa [hls, bind, Except.bind] using h2
        exact absurd h4 (by simp)
      | false =>
        have h4 : (Except.ok ⟨u, (getKey tableLineage model.name).getD []⟩
            : Except LdError Table) = .ok t := by
          simpa [hls, bind, Except.bind, pure, Except.pure] using h2
        simp only [Except.ok.injEq] at h4
        rw [← h4]
        exact convertTable_ok_name ext.convertMetric adapterType model tm u hct

theorem getKey_tableLookup_foldl (tables : List Table) :
    ∀ (acc : Rcd Table) (n : String),
      (getKey (tables.foldl (fun prev t => setKey prev t.name t) acc) n).isSome = true
        ↔ (n ∈ tables.map (fun t => t.name) ∨ (getKey acc n).isSome = true) := by
  induction tables with
  | nil => intro acc n; simp
  | cons t ts ih =>
    intro acc n
    rw [List.foldl_cons, ih]
    constructor
    · rintro (h | h)
      · exact Or.inl (by simp [h])
      · rw [getKey_isSome_iff_mem_keysOf] at h
        rcases (mem_keysOf_setKey acc t.name n t).1 h with h' | h'
        · exact Or.inl (by simp [h'])
        · exact Or.inr ((getKey_isSome_iff_mem_keysOf acc n).2 h')
    · rintro (h | h)
      · simp only [List.map_cons, List.mem_cons] at h
        rcases h with h' | h'
        · refine Or.inr ?_
          rw [getKey_isSome_iff_mem_keysOf]
          exact (mem_keysOf_setKey acc t.name n t).2 (Or.inl h')
        · exact Or.inl h'
      · refine Or.inr ?_
        rw [getKey_isSome_iff_mem_keysOf]
        exact (mem_keysOf_setKey acc t.name n t).2
          (Or.inr ((getKey_isSome_iff_mem_keysOf acc n).1 h))

theorem getKey_tableLookupOf_isSome (tables : List Table) (n : String) :
    (getKey (tableLookupOf tables) n).isSome = true ↔ n ∈ tables.map (fun t => t.name) := by
  unfold tableLookupOf
  rw [getKey_tableLookup_foldl tables [] n]
  simp [getKey]

/-- Whether an output entry is an `ExploreError` carrying a given name. -/
def errNamed (nm : String) : ExploreOrError → Bool
  | .exploreError er => er.name == nm
  | .explore _ => false

theorem bind_okOf_isSome (o : Option (Except LdError Table)) :
    (o.bind okOf).isSome = true ↔ ∃ t, o = some (.ok t) := by
  cases o with
  | none => simp
  | some r =>
    cases r with
    | ok t => simp [okOf]
    | error e => simp [okOf]

theorem mem_phase1TablesOf (ext : Externals) (fuel : Nat)
    (adapterType : SupportedDbtAdapter) (metrics : List DbtMetric) (loadSources : Bool)
    (models : List DbtModelNode) (t : Table) :
    t ∈ phase1TablesOf ext fuel adapterType metrics loadSources models ↔
      ∃ m ∈ models,
        attemptFor ext fuel adapterType metrics loadSources models m = some (.ok t) := by
  unfold phase1TablesOf
  rw [List.mem_filterMap]
  constructor
  · rintro ⟨m, hm, hf⟩
    refine ⟨m, hm, ?_⟩
    cases ha : attemptFor ext fuel adapterType metrics loadSources models m with
    | none => rw [ha] at hf; exact absurd hf (by simp)
    | some r =>
      rw [ha] at hf
      cases r with
      | ok t' =>
        have : t' = t := by simpa [okOf] using hf
        rw [this]
      | error e => exact absurd hf (by simp [okOf])
  · rintro ⟨m, hm, hf⟩
    exact ⟨m, hm, by rw [hf]; rfl⟩

theorem attemptFor_ok_name (ext : Externals) (fuel : Nat)
    (adapterType : SupportedDbtAdapter) (metrics : List DbtMetric) (loadSources : Bool)
    (models : List DbtModelNode) (m : DbtModelNode) (t : Table)
    (h : attemptFor ext fuel adapterType metrics loadSources models m = some (.ok t)) :
    t.name = m.name :=
  attemptModel_ok_name ext fuel adapterType metrics loadSources
    (translateDbtModelsToTableLineage ext models) m t h

theorem validKey_iff (ext : Externals) (fuel : Nat) (adapterType : SupportedDbtAdapter)
    (metrics : List DbtMetric) (loadSources : Bool) (models : List DbtModelNode)
    (hnodup : (models.map (fun m => m.name)).Nodup) (m : DbtModelNode) (hm : m ∈ models) :
    (getKey (tableLookupOf (phase1TablesOf ext fuel adapterType metrics loadSources models))
        m.name).isSome = true
      ↔ ((attemptFor ext fuel adapterType metrics loadSources models m).bind okOf).isSome
          = true := by
  rw [getKey_tableLookupOf_isSome, bind_okOf_isSome]
  constructor
  · intro h
    rcases List.mem_map.1 h with ⟨t, ht, hname⟩
    rcases (mem_phase1TablesOf ext fuel adapterType metrics loadSources models t).1 ht
      with ⟨m', hm', hf⟩
    have hn' : t.name = m'.name :=
      attemptFor_ok_name ext fuel adapterType metrics loadSources models m' t hf
    have heq : m' = m := List.inj_on_of_nodup_map hnodup hm' hm (by rw [← hn', hname])
    rw [heq] at hf
    exact ⟨t, hf⟩
  · rintro ⟨t, hf⟩
    exact List.mem_map.2 ⟨t,
      (mem_phase1TablesOf ext fuel adapterType metrics loadSources models t).2 ⟨m, hm, hf⟩,
      attemptFor_ok_name ext fuel adapterType metrics loadSources models m t hf⟩

theorem filterMap_err_name_nil (g : DbtModelNode → Option ExploreErrorRec)
    (hg : ∀ m er, g m = some er → er.name = m.name) (nm : String) :
    ∀ ms : List DbtModelNode, nm ∉ ms.map (fun m => m.name) →
      (ms.filterMap g).filter (fun er => er.name == nm) = [] := by
  intro ms
  induction ms with
  | nil => intro _; rfl
  | cons m0 ms ih =>
    intro hnm
    have h0 : nm ≠ m0.name := by
      intro h; exact hnm (by rw [List.map_cons, h]; exact List.mem_cons_self _ _)
    have htail : nm ∉ ms.map (fun m => m.name) := by
      intro h; exact hnm (by rw [List.map_cons]; exact List.mem_cons_of_mem _ h)
    rw [List.filterMap_cons]
    cases hgm : g m0 with
    | none => exact ih htail
    | some er =>
      have hc : (er.name == nm) = false :=
        beq_eq_false_iff_ne.2 (by rw [hg m0 er hgm]; exact fun h => h0 h.symm)
      rw [List.filter_cons, hc, if_neg Bool.false_ne_true]
      exact ih htail

theorem filterMap_err_name_filter (g : DbtModelNode → Option ExploreErrorRec)
    (hg : ∀ m er, g m = some er → er.name = m.name) :
    ∀ (models : List DbtModelNode) (model : DbtModelNode) (er0 : ExploreErrorRec),
      (models.map (fun m => m.name)).Nodup → model ∈ models → g model = some er0 →
      (models.filterMap g).filter (fun er => er.name == model.name) = [er0] := by
  intro models
  induction models with
  | nil => intro model er0 _ hm; exact absurd hm (List.not_mem_nil _)
  | cons m0 ms ih =>
    intro model er0 hnd hm hg0
    have hnd2 : (m0.name :: ms.map (fun m => m.name)).Nodup := by
      rw [← List.map_cons]; exact hnd
    have hnd' := List.nodup_cons.1 hnd2
    rw [List.filterMap_cons]
    rcases List.mem_cons.1 hm with rfl | hm'
    · rw [hg0]
      have hc : (er0.name == model.name) = true := by
        rw [hg model er0 hg0]; exact beq_self_eq_true _
      rw [List.filter_cons, hc, if_pos rfl]
      rw [filterMap_err_name_nil g hg model.name ms hnd'.1]
    · have hne : m0.name ≠ model.name := by
        intro h
        exact hnd'.1 (by rw [h]; exact List.mem_map_of_mem _ hm')
      cases hgm : g m0 with
      | none => exact ih model er0 hnd'.2 hm' hg0
      | some er =>
        have hc : (er.name == model.name) = false :=
          beq_eq_false_iff_ne.2 (by rw [hg m0 er hgm]; exact hne)
        rw [List.filter_cons, hc, if_neg Bool.false_ne_true]
        exact ih model er0 hnd'.2 hm' hg0

theorem bindErrOf_name (ext : Externals) (fuel : Nat) (adapterType : SupportedDbtAdapter)
    (metrics : List DbtMetric) (loadSources : Bool) (models : List DbtModelNode) :
    ∀ m er, ((attemptFor ext fuel adapterType metrics loadSources models m).bind (errOf m))
        = some er → er.name = m.name := by
  intro m er h
  cases ha : attemptFor ext fuel adapterType metrics loadSources models m with
  | none => rw [ha] at h; exact absurd h (by simp)
  | some r =>
    rw [ha] at h
    cases r with
    | ok t => exact absurd h (by simp [errOf])
    | error e =>
      have h' : some (mkPhase1Error m e) = some er := h
      simp only [Option.some.injEq] at h'
      rw [← h']
      rfl

/-- C1: `convertExplores` isolates per-model failures. On a terminating run
over models with distinct names, if one model's table conversion throws any
error, that model yields exactly one `ExploreError` in the output (carrying
the error's name as its `type` and its message with the generic
"could not convert" fallback, per `mkPhase1Error`), while every other model
is still converted and, when its join compilation succeeds, appears as a
full `Explore` in the result; the overall function never throws (`some out`). -/
theorem convertExplores_isolates_failures (ext : Externals) (fuel : Nat)
    (models : List DbtModelNode) (loadSources : Bool)
    (adapterType : SupportedDbtAdapter) (metrics : List DbtMetric)
    (out : List ExploreOrError) (model : DbtModelNode) (tm : List DbtMetric)
    (e : LdError)
    (hnodup : (models.map (fun m => m.name)).Nodup)
    (hout : convertExplores ext fuel models loadSources adapterType metrics = some out)
    (hm : model ∈ models)
    (htm : metricsForModel fuel metrics model.name = some tm)
    (hfail : convertTable ext.convertMetric adapterType model tm = .error e) :
    ExploreOrError.exploreError (mkPhase1Error model e) ∈ out
    ∧ (out.filter (errNamed model.name)).length = 1
    ∧ ∀ m' ∈ models, ∀ t',
        attemptFor ext fuel adapterType metrics loadSources models m' = some (.ok t') →
        ∀ E, ext.compileExplore (compileArgsFor adapterType
            (tableLookupOf (phase1TablesOf ext fuel adapterType metrics loadSources models))
            m') = .ok E →
        ExploreOrError.explore E ∈ out := by
  obtain ⟨hall, hchar⟩ :=
    convertExplores_char ext fuel models loadSources adapterType metrics out hout
  have haf : attemptFor ext fuel adapterType metrics loadSources models model
      = some (.error e) := by
    have h1 : attemptFor ext fuel adapterType metrics loadSources models model
        = some (attemptTable ext adapterType loadSources
            (translateDbtModelsToTableLineage ext models) tm model) := by
      unfold attemptFor attemptModel
      rw [htm]
      rfl
    rw [h1]
    unfold attemptTable
    rw [hfail]
    rfl
  have hgerr : ((attemptFor ext fuel adapterType metrics loadSources models model).bind
      (errOf model)) = some (mkPhase1Error model e) := by
    rw [haf]; rfl
  have hnotvalid : ¬ (getKey (tableLookupOf
      (phase1TablesOf ext fuel adapterType metrics loadSources models))
      model.name).isSome = true := by
    intro hv
    have hv2 := (validKey_iff ext fuel adapterType metrics loadSources models
      hnodup model hm).1 hv
    rw [bind_okOf_isSome] at hv2
    obtain ⟨t, ht⟩ := hv2
    rw [haf] at ht
    exact absurd ht (by simp)
  have hvmap : ∀ m' ∈ models.filter (fun m => (getKey (tableLookupOf
      (phase1TablesOf ext fuel adapterType metrics loadSources models)) m.name).isSome),
      errNamed model.name (phase2 ext adapterType (tableLookupOf
        (phase1TablesOf ext fuel adapterType metrics loadSources models)) m') = false := by
    intro m' hm'
    have hmem := List.mem_of_mem_filter hm'
    have hval := List.of_mem_filter hm'
    have hne : m'.name ≠ model.name := by
      intro h
      have heq : m' = model := List.inj_on_of_nodup_map hnodup hmem hm h
      rw [heq] at hval
      exact hnotvalid hval
    unfold phase2
    cases hce : ext.compileExplore (compileArgsFor adapterType (tableLookupOf
        (phase1TablesOf ext fuel adapterType metrics loadSources models)) m') with
    | ok E => rfl
    | error e' =>
      show (m'.name == model.name) = false
      exact beq_eq_false_iff_ne.2 hne
  have hleft : ((models.filter (fun m => (getKey (tableLookupOf
      (phase1TablesOf ext fuel adapterType metrics loadSources models)) m.name).isSome)).map
      (phase2 ext adapterType (tableLookupOf
        (phase1TablesOf ext fuel adapterType metrics loadSources models)))).filter
      (errNamed model.name) = [] := by
    rw [List.filter_eq_nil_iff]
    intro a ha
    rcases List.mem_map.1 ha with ⟨m', hm', rfl⟩
    rw [hvmap m' hm']
    simp
  have hright : ((models.filterMap (fun m =>
      (attemptFor ext fuel adapterType metrics loadSources models m).bind (errOf m))).map
      ExploreOrError.exploreError).filter (errNamed model.name)
      = [ExploreOrError.exploreError (mkPhase1Error model e)] := by
    rw [List.filter_map]
    have hcomp : (errNamed model.name ∘ ExploreOrError.exploreError)
        = (fun er => er.name == model.name) := rfl
    rw [hcomp]
    rw [filterMap_err_name_filter
      (fun m => (attemptFor ext fuel adapterType metrics loadSources models m).bind (errOf m))
      (bindErrOf_name ext fuel adapterType metrics loadSources models)
      models model (mkPhase1Error model e) hnodup hm hgerr]
    rfl
  have hfilter : out.filter (errNamed model.name)
      = [ExploreOrError.exploreError (mkPhase1Error model e)] := by
    rw [hchar, List.filter_append, hleft, hright, List.nil_append]
  refine ⟨?_, ?_, ?_⟩
  · have hx : ExploreOrError.exploreError (mkPhase1Error model e)
        ∈ out.filter (errNamed model.name) := by
      rw [hfilter]; exact List.mem_singleton_self _
    exact List.mem_of_mem_filter hx
  · rw [hfilter]; rfl
  · intro m' hm' t' hatt E hcomp2
    rw [hchar]
    refine List.mem_append_left _ (List.mem_map.2 ⟨m', ?_, ?_⟩)
    · refine List.mem_filter.2 ⟨hm', ?_⟩
      show (getKey (tableLookupOf
        (phase1TablesOf ext fuel adapterType metrics loadSources models))
        m'.name).isSome = true
      rw [validKey_iff ext fuel adapterType metrics loadSources models hnodup m' hm',
        bind_okOf_isSome]
      exact ⟨t', hatt⟩
    · unfold phase2
      rw [hcomp2]

/-- External collaborators for the C1 witness run: join compilation always
succeeds with a minimal `Explore` echoing the arguments. -/
def c1Ext : Externals :=
  { convertMetric := fun _ => .error (.parseError "unused")
    compileExplore := fun a =>
      .ok { name := a.name, label := a.label, tags := a.tags, baseTable := a.baseTable }
    buildModelGraph := fun _ =>
      { dependantsOf := fun _ => []
        dependenciesOf := fun _ => []
        directDependenciesOf := fun _ => []
        nodeName := fun _ => "" } }

/-- Witness model for C1 that fails conversion: not compiled by dbt. -/
def c1Bad : DbtModelNode :=
  { unique_id := "model.proj.bad"
    name := "bad"
    database := "db"
    schema := "public"
    relation_name := some "\"db\".\"public\".\"bad\""
    description := none
    columns := []
    config_meta := none
    meta := { label := none, joins := none }
    tags := some []
    patch_path := none
    compiled := false }

/-- Witness model for C1 that converts and compiles successfully. -/
def c1Good : DbtModelNode :=
  { unique_id := "model.proj.good"
    name := "good"
    database := "db"
    schema := "public"
    relation_name := some "\"db\".\"public\".\"good\""
    description := none
    columns := []
    config_meta := none
    meta := { label := none, joins := none }
    tags := some []
    patch_path := none
    compiled := true }

/-- The model list of the C1 witness run. -/
def c1Models : List DbtModelNode := [c1Bad, c1Good]

/-- The concrete output of the C1 witness run. -/
def c1Out : List ExploreOrError :=
  (convertExplores c1Ext 1 c1Models false .postgres []).getD []

/-- C1 witness: on the concrete two-model run where `bad` is uncompiled, the
failure is isolated exactly as the theorem states. -/
theorem convertExplores_isolates_failures_witness :
    ExploreOrError.exploreError
        (mkPhase1Error c1Bad (.nonCompiledModelError "Model has not been compiled by dbt"))
      ∈ c1Out
    ∧ (c1Out.filter (errNamed c1Bad.name)).length = 1
    ∧ ∀ m' ∈ c1Models, ∀ t',
        attemptFor c1Ext 1 .postgres [] false c1Models m' = some (.ok t') →
        ∀ E, c1Ext.compileExplore (compileArgsFor .postgres
            (tableLookupOf (phase1TablesOf c1Ext 1 .postgres [] false c1Models)) m')
          = .ok E →
        ExploreOrError.explore E ∈ c1Out :=
  convertExplores_isolates_failures c1Ext 1 c1Models false .postgres [] c1Out c1Bad []
    (.nonCompiledModelError "Model has not been compiled by dbt")
    (by decide) rfl (by decide) rfl rfl

/-- C2 (amended): the output of a terminating `convertExplores` run over models
with distinct names is the compile-phase block first — one entry per model
whose table conversion succeeded, in input model order, each being either a
full `Explore` or a join-compilation `ExploreError` (`phase2`) — followed by
the table-conversion `ExploreError`s appended at the end. The original claim
is false: a phase-2 `ExploreError` sits in the first block and can precede a
successful `Explore` of a later model. -/
theorem convertExplores_output_order (ext : Externals) (fuel : Nat)
    (models : List DbtModelNode) (loadSources : Bool)
    (adapterType : SupportedDbtAdapter) (metrics : List DbtMetric)
    (out : List ExploreOrError)
    (hnodup : (models.map (fun m => m.name)).Nodup)
    (hout : convertExplores ext fuel models loadSources adapterType metrics = some out) :
    out = (models.filter (fun m =>
          ((attemptFor ext fuel adapterType metrics loadSources models m).bind
            okOf).isSome)).map
        (phase2 ext adapterType
          (tableLookupOf (phase1TablesOf ext fuel adapterType metrics loadSources models)))
      ++ (models.filterMap (fun m =>
          (attemptFor ext fuel adapterType metrics loadSources models m).bind
            (errOf m))).map ExploreOrError.exploreError := by
  obtain ⟨hall, hchar⟩ :=
    convertExplores_char ext fuel models loadSources adapterType metrics out hout
  rw [hchar]
  have hfe : models.filter (fun m => (getKey (tableLookupOf
        (phase1TablesOf ext fuel adapterType metrics loadSources models)) m.name).isSome)
      = models.filter (fun m =>
          ((attemptFor ext fuel adapterType metrics loadSources models m).bind
            okOf).isSome) := by
    apply List.filter_congr
    intro m hm
    show (getKey (tableLookupOf
        (phase1TablesOf ext fuel adapterType metrics loadSources models)) m.name).isSome
      = ((attemptFor ext fuel adapterType metrics loadSources models m).bind okOf).isSome
    rw [Bool.eq_iff_iff]
    exact validKey_iff ext fuel adapterType metrics loadSources models hnodup m hm
  rw [hfe]

/-- External collaborators for the C2 runs: join compilation fails exactly for
the model named `m1` and succeeds for every other model. -/
def c2Ext : Externals :=
  { convertMetric := fun _ => .error (.parseError "unused")
    compileExplore := fun a =>
      if a.name == "m1" then .error (.genericError (some "Cannot resolve join"))
      else .ok { name := a.name, label := a.label, tags := a.tags, baseTable := a.baseTable }
    buildModelGraph := fun _ =>
      { dependantsOf := fun _ => []
        dependenciesOf := fun _ => []
        directDependenciesOf := fun _ => []
        nodeName := fun _ => "" } }

/-- First model of the C2 runs: converts fine, fails join compilation. -/
def c2M1 : DbtModelNode :=
  { unique_id := "model.proj.m1"
    name := "m1"
    database := "db"
    schema := "public"
    relation_name := some "\"db\".\"public\".\"m1\""
    description := none
    columns := []
    config_meta := none
    meta := { label := none, joins := none }
    tags := some []
    patch_path := none
    compiled := true }

/-- Second model of the C2 runs: converts and compiles fine. -/
def c2M2 : DbtModelNode :=
  { unique_id := "model.proj.m2"
    name := "m2"
    database := "db"
    schema := "public"
    relation_name := some "\"db\".\"public\".\"m2\""
    description := none
    columns := []
    config_meta := none
    meta := { label := none, joins := none }
    tags := some []
    patch_path := none
    compiled := true }

/-- The model list of the C2 runs. -/
def c2Models : List DbtModelNode := [c2M1, c2M2]

/-- The concrete output of the C2 run. -/
def c2Out : List ExploreOrError :=
  (convertExplores c2Ext 1 c2Models false .postgres []).getD []

/-- C2 counterexample: on the concrete run where `m1` converts but fails join
compilation and `m2` succeeds fully, the output places an `ExploreError` (for
`m1`) at index 0 before the successful `Explore` (for `m2`) at index 1,
refuting "no ExploreError appears before any successful Explore". -/
theorem convertExplores_phase2_error_order_cex :
    convertExplores c2Ext 1 c2Models false .postgres [] = some c2Out
    ∧ (∃ er, c2Out[0]? = some (ExploreOrError.exploreError er))
    ∧ (∃ E, c2Out[1]? = some (ExploreOrError.explore E)) :=
  ⟨rfl, ⟨_, rfl⟩, ⟨_, rfl⟩⟩

/-- C2 witness: the amended ordering theorem applied to the concrete run. -/
theorem convertExplores_output_order_witness :
    c2Out = (c2Models.filter (fun m =>
          ((attemptFor c2Ext 1 .postgres [] false c2Models m).bind okOf).isSome)).map
        (phase2 c2Ext .postgres
          (tableLookupOf (phase1TablesOf c2Ext 1 .postgres [] false c2Models)))
      ++ (c2Models.filterMap (fun m =>
          (attemptFor c2Ext 1 .postgres [] false c2Models m).bind
            (errOf m))).map ExploreOrError.exploreError :=
  convertExplores_output_order c2Ext 1 c2Models false .postgres [] c2Out (by decide) rfl
